import Mathlib

/-!
# Task lifecycle and scheduling engine of `cube.c`

A shallow embedding of the task registry, the resource pool and the three
scheduling policies of `src/cube.c`, with the properties of its
specification stated and proved over it.

Modelling conventions.

* C `int` values are mathematical integers (`Int`).  While footprints are
  non-negative every counter stays between `0` and its total, so no machine
  overflow occurs on those runs.
* The global array `Task tasks[MAX_TASKS]` is a map from index to `Task`; every
  read and write goes through `rd` and `wr`, which are undefined (`none`)
  outside `[0, MAX_TASKS)`.  A function of the source returns `none` exactly
  when it would index the array out of bounds.
* Inputs the source takes from its environment (the answer to a prompt, the
  clock, `rand()`, the results of `kill` and `waitpid`) are parameters.
* What a function does to its environment (messages, signals, spawned
  commands) is returned as a list of `Event`s next to the new state.
-/

namespace Cube

/-- Capacity of the task array: `#define MAX_TASKS 50`. -/
def MAX_TASKS : Int := 50

/-- Round-Robin quantum: `#define TIME_QUANTUM 2`. -/
def TIME_QUANTUM : Int := 2

/-- The enum `SchedulingAlgorithm`. -/
inductive SchedulingAlgorithm where
  | FCFS
  | ROUND_ROBIN
  | PRIORITY
deriving DecidableEq, Repr

/-- The struct `Task`. -/
structure Task where
  pid : Int
  name : String
  ram_usage : Int
  hdd_usage : Int
  cpu_usage : Int
  is_running : Int
  is_minimized : Int
  start_time : Int
  priority : Int
  remaining_time : Int
deriving DecidableEq, Repr

/-- The struct `SystemResources`. -/
structure SystemResources where
  total_ram : Int
  total_hdd : Int
  total_cores : Int
  available_ram : Int
  available_hdd : Int
  available_cores : Int
deriving DecidableEq, Repr

/-- The task array, indexed by position. -/
abbrev TaskArray := Nat → Task

/-- The global variables of the core: `tasks`, `system_res`, `task_count`
and `current_scheduler`. -/
structure State where
  tasks : TaskArray
  system_res : SystemResources
  task_count : Int
  current_scheduler : SchedulingAlgorithm

/-- Effects on the environment, in the order the source performs them. -/
inductive Event where
  | print_error (msg : String)
  | print_success (msg : String)
  | perror (msg : String)
  | system (task_name : String)
  | foreground (task_name : String)
  | kill (pid : Int)
  | waitpid (pid : Int)
deriving DecidableEq, Repr

/-- Read of `tasks[i]`: defined only for `0 <= i < MAX_TASKS`. -/
def rd (a : TaskArray) (i : Int) : Option Task :=
  if 0 ≤ i ∧ i < MAX_TASKS then some (a i.toNat) else none

/-- Write `tasks[i] = t`: defined only for `0 <= i < MAX_TASKS`. -/
def wr (a : TaskArray) (i : Int) (t : Task) : Option TaskArray :=
  if 0 ≤ i ∧ i < MAX_TASKS then some (Function.update a i.toNat t) else none

/-- A zero-initialised `Task` (C static storage). -/
def zeroTask : Task :=
  { pid := 0, name := "", ram_usage := 0, hdd_usage := 0, cpu_usage := 0,
    is_running := 0, is_minimized := 0, start_time := 0, priority := 0,
    remaining_time := 0 }

/-- The state `main` reaches before its menu loop (lines 124-147): the three
totals as read, `available = total`, an empty registry and the FCFS policy. -/
def init (total_ram total_hdd total_cores : Int) : State :=
  { tasks := fun _ => zeroTask,
    system_res :=
      { total_ram := total_ram, total_hdd := total_hdd, total_cores := total_cores,
        available_ram := total_ram, available_hdd := total_hdd,
        available_cores := total_cores },
    task_count := 0,
    current_scheduler := SchedulingAlgorithm.FCFS }

/-- The function `manage_resources(ram, hdd, cpu, allocate)`. -/
def manage_resources (r : SystemResources) (ram hdd cpu : Int) (allocate : Int) :
    SystemResources :=
  if allocate ≠ 0 then
    { r with
      available_ram := r.available_ram - ram,
      available_hdd := r.available_hdd - hdd,
      available_cores := r.available_cores - cpu }
  else
    { r with
      available_ram := r.available_ram + ram,
      available_hdd := r.available_hdd + hdd,
      available_cores := r.available_cores + cpu }

/-- The function `check_resources(ram, hdd, cpu)`. -/
def check_resources (r : SystemResources) (ram hdd cpu : Int) : Bool :=
  decide (r.available_ram ≥ ram) && decide (r.available_hdd ≥ hdd) &&
    decide (r.available_cores ≥ cpu)

/-- The function `create_process`.  `bg` is the character read at the
"Run in background?" prompt, `now` the value of `time(NULL)`, `r1` and `r2`
the two values of `rand()`.  C `%` truncates, hence `Int.tmod`.  The ten field
assignments to `tasks[task_count]` are one write of the whole record; `strcpy`
copies `task_name` whole (every caller passes a catalog name shorter than
`MAX_NAME_LENGTH`). -/
def create_process (s : State) (task_name : String) (ram hdd cpu : Int)
    (bg : Char) (now r1 r2 : Int) : Option (State × List Event) :=
  if !check_resources s.system_res ram hdd cpu then
    some (s, [Event.print_error "Not enough resources to start this task!"])
  else
    let run_in_background : Bool := bg = 'y' || bg = 'Y'
    if run_in_background then
      if s.task_count < MAX_TASKS then
        (wr s.tasks s.task_count
          { pid := -1, name := task_name, ram_usage := ram, hdd_usage := hdd,
            cpu_usage := cpu, is_running := 1, is_minimized := 0,
            start_time := now, priority := Int.tmod r1 5 + 1,
            remaining_time := Int.tmod r2 10 + 1 }).bind fun tasks1 =>
        some ({ s with
                tasks := tasks1,
                system_res := manage_resources s.system_res ram hdd cpu 1,
                task_count := s.task_count + 1 },
              [Event.system task_name,
               Event.print_success "Task started in background in a new terminal!"])
      else
        some (s, [Event.system task_name,
                  Event.print_error "Maximum number of tasks reached!"])
    else
      some (s, [Event.foreground task_name])

/-- The loop `for (i = start; i < bound; i++) tasks[i] = tasks[i + 1];`, run
for its `n = bound - start` iterations from `i`. -/
def shift_loop : Nat → Int → TaskArray → Option TaskArray
  | 0, _, a => some a
  | n + 1, i, a =>
    (rd a (i + 1)).bind fun t =>
    (wr a i t).bind fun a1 =>
    shift_loop n (i + 1) a1

/-- The inner loop of the PRIORITY branch,
`for (j = ..; j < task_count - i - 1; j++) if (tasks[j].priority < tasks[j+1].priority) swap`,
run for its `n` remaining iterations from `j`. -/
def priority_inner : Nat → Int → TaskArray → Option TaskArray
  | 0, _, a => some a
  | n + 1, j, a =>
    (rd a j).bind fun x =>
    (rd a (j + 1)).bind fun y =>
    if x.priority < y.priority then
      (wr a j y).bind fun a1 =>
      (wr a1 (j + 1) x).bind fun a2 =>
      priority_inner n (j + 1) a2
    else
      priority_inner n (j + 1) a

/-- The outer loop of the PRIORITY branch,
`for (i = ..; i < task_count - 1; i++)`, run for its `n` remaining iterations
from `i`. -/
def priority_outer (task_count : Int) : Nat → Int → TaskArray → Option TaskArray
  | 0, _, a => some a
  | n + 1, i, a =>
    (priority_inner (task_count - i - 1).toNat 0 a).bind fun a1 =>
    priority_outer task_count n (i + 1) a1

/-- The function `schedule_tasks`.  `_kill_ret` and `_wait_ret` are the results
of `kill` and `waitpid` in the Round-Robin eviction; the source discards both. -/
def schedule_tasks (s : State) (_kill_ret _wait_ret : Int) :
    Option (State × List Event) :=
  if s.task_count = 0 then some (s, [])
  else
    match s.current_scheduler with
    | SchedulingAlgorithm.FCFS => some (s, [])
    | SchedulingAlgorithm.ROUND_ROBIN =>
      (rd s.tasks 0).bind fun temp =>
      (shift_loop (s.task_count - 1).toNat 0 s.tasks).bind fun a1 =>
      (wr a1 (s.task_count - 1) temp).bind fun a2 =>
      (rd a2 (s.task_count - 1)).bind fun last =>
      (wr a2 (s.task_count - 1)
        { last with remaining_time := last.remaining_time - TIME_QUANTUM }).bind fun a3 =>
      (rd a3 (s.task_count - 1)).bind fun cur =>
      if cur.remaining_time ≤ 0 then
        some ({ s with
                tasks := a3,
                system_res :=
                  manage_resources s.system_res cur.ram_usage cur.hdd_usage cur.cpu_usage 0,
                task_count := s.task_count - 1 },
              [Event.kill cur.pid, Event.waitpid cur.pid])
      else
        some ({ s with tasks := a3 }, [])
    | SchedulingAlgorithm.PRIORITY =>
      (priority_outer s.task_count (s.task_count - 1).toNat 0 s.tasks).bind fun a1 =>
      some ({ s with tasks := a1 }, [])

/-- The function `set_scheduling_algorithm`; `choice` is `none` when `scanf`
reads no integer. -/
def set_scheduling_algorithm (s : State) (choice : Option Int) : State × List Event :=
  match choice with
  | none => (s, [Event.print_error "Invalid input!"])
  | some c =>
    if c = 1 then
      ({ s with current_scheduler := SchedulingAlgorithm.FCFS },
       [Event.print_success "Scheduling algorithm changed!"])
    else if c = 2 then
      ({ s with current_scheduler := SchedulingAlgorithm.ROUND_ROBIN },
       [Event.print_success "Scheduling algorithm changed!"])
    else if c = 3 then
      ({ s with current_scheduler := SchedulingAlgorithm.PRIORITY },
       [Event.print_success "Scheduling algorithm changed!"])
    else if c = 4 then (s, [])
    else (s, [Event.print_error "Invalid choice!"])

/-- The function `close_task`.  `kill_ret` and `wait_ret` are the results of
`kill` and `waitpid` (`-1` on failure).  The `||` chain short-circuits, so
`tasks[task_index]` is read only for `0 <= task_index < task_count`. -/
def close_task (s : State) (task_index : Int) (kill_ret wait_ret : Int) :
    Option (State × List Event) :=
  if task_index < 0 ∨ task_index ≥ s.task_count then
    some (s, [Event.print_error "Invalid task index!"])
  else
    (rd s.tasks task_index).bind fun t =>
    if t.is_running = 0 then
      some (s, [Event.print_error "Invalid task index!"])
    else if kill_ret = -1 then
      some (s, [Event.kill t.pid, Event.perror "Failed to terminate task"])
    else if wait_ret = -1 then
      some (s, [Event.kill t.pid, Event.waitpid t.pid,
                Event.perror "Failed to wait for task"])
    else
      (shift_loop (s.task_count - 1 - task_index).toNat task_index s.tasks).bind fun a1 =>
      some ({ s with
              tasks := a1,
              system_res :=
                manage_resources s.system_res t.ram_usage t.hdd_usage t.cpu_usage 0,
              task_count := s.task_count - 1 },
            [Event.kill t.pid, Event.waitpid t.pid,
             Event.print_success "Task closed successfully!"])

/-- The function `minimize_task`. -/
def minimize_task (s : State) (task_index : Int) : Option (State × List Event) :=
  if task_index < 0 ∨ task_index ≥ s.task_count then
    some (s, [Event.print_error "Invalid task index!"])
  else
    (rd s.tasks task_index).bind fun t =>
    if t.is_running = 0 then
      some (s, [Event.print_error "Invalid task index!"])
    else
      (wr s.tasks task_index { t with is_minimized := 1 }).bind fun a1 =>
      some ({ s with tasks := a1 }, [Event.print_success "Task minimized successfully!"])

/-- The function `restore_task`. -/
def restore_task (s : State) (task_index : Int) : Option (State × List Event) :=
  if task_index < 0 ∨ task_index ≥ s.task_count then
    some (s, [Event.print_error "Invalid task index!"])
  else
    (rd s.tasks task_index).bind fun t =>
    if t.is_running = 0 then
      some (s, [Event.print_error "Invalid task index!"])
    else
      (wr s.tasks task_index { t with is_minimized := 0 }).bind fun a1 =>
      some ({ s with tasks := a1 }, [Event.print_success "Task restored successfully!"])

/-- One call into the core, with the inputs it takes from the environment. -/
inductive Op where
  | create_process (task_name : String) (ram hdd cpu : Int) (bg : Char) (now r1 r2 : Int)
  | close_task (task_index kill_ret wait_ret : Int)
  | minimize_task (task_index : Int)
  | restore_task (task_index : Int)
  | set_scheduling_algorithm (choice : Option Int)
  | schedule_tasks (kill_ret wait_ret : Int)
deriving DecidableEq, Repr

/-- Perform one operation. -/
def step (s : State) : Op → Option (State × List Event)
  | Op.create_process task_name ram hdd cpu bg now r1 r2 =>
    create_process s task_name ram hdd cpu bg now r1 r2
  | Op.close_task task_index kill_ret wait_ret => close_task s task_index kill_ret wait_ret
  | Op.minimize_task task_index => minimize_task s task_index
  | Op.restore_task task_index => restore_task s task_index
  | Op.set_scheduling_algorithm choice => some (set_scheduling_algorithm s choice)
  | Op.schedule_tasks kill_ret wait_ret => schedule_tasks s kill_ret wait_ret

/-- Perform a sequence of operations, left to right. -/
def run (s : State) : List Op → Option State
  | [] => some s
  | op :: ops => (step s op).bind fun r => run r.1 ops

/-- Sum of a field over `tasks[0 .. n)`. -/
def usage_sum (f : Task → Int) (a : TaskArray) (n : Nat) : Int :=
  ((List.range n).map fun i => f (a i)).sum

/-- Resource conservation: for each kind, available plus the usage of the
registered tasks is the total. -/
def conserved (s : State) : Prop :=
  s.system_res.available_ram + usage_sum Task.ram_usage s.tasks s.task_count.toNat
      = s.system_res.total_ram ∧
  s.system_res.available_hdd + usage_sum Task.hdd_usage s.tasks s.task_count.toNat
      = s.system_res.total_hdd ∧
  s.system_res.available_cores + usage_sum Task.cpu_usage s.tasks s.task_count.toNat
      = s.system_res.total_cores

/-- Range invariant: every available counter lies in `[0, total]`. -/
def in_range (s : State) : Prop :=
  (0 ≤ s.system_res.available_ram ∧ s.system_res.available_ram ≤ s.system_res.total_ram) ∧
  (0 ≤ s.system_res.available_hdd ∧ s.system_res.available_hdd ≤ s.system_res.total_hdd) ∧
  (0 ≤ s.system_res.available_cores ∧
    s.system_res.available_cores ≤ s.system_res.total_cores)

/-- The request is one `create_process` registers in state `s`: the resource
check passes, the answer asks for background execution and the registry is not
full. -/
def registers (s : State) (ram hdd cpu : Int) (bg : Char) : Prop :=
  check_resources s.system_res ram hdd cpu = true ∧ (bg = 'y' ∨ bg = 'Y') ∧
    s.task_count < MAX_TASKS

/-- If the operation registers a task in `s`, its footprint is non-negative. -/
def op_nonneg (s : State) : Op → Prop
  | Op.create_process _ ram hdd cpu bg _ _ _ =>
    registers s ram hdd cpu bg → 0 ≤ ram ∧ 0 ≤ hdd ∧ 0 ≤ cpu
  | _ => True

/-- Every footprint admitted while the sequence runs from `s` is non-negative. -/
def admitted_nonneg : State → List Op → Prop
  | _, [] => True
  | s, op :: ops =>
    op_nonneg s op ∧
      match step s op with
      | some r => admitted_nonneg r.1 ops
      | none => True

/-- Every footprint requested in the sequence is non-negative. -/
def requests_nonneg : List Op → Prop
  | [] => True
  | Op.create_process _ ram hdd cpu _ _ _ _ :: ops =>
    (0 ≤ ram ∧ 0 ≤ hdd ∧ 0 ≤ cpu) ∧ requests_nonneg ops
  | _ :: ops => requests_nonneg ops

/-- The registry as a list: `tasks[0 .. n)` in index order. -/
def registry (a : TaskArray) (n : Nat) : List Task := (List.range n).map a

/-- The array a Round-Robin tick leaves for a registry of length `n >= 1`: entries
`1 .. n-1` moved down by one, the old front entry at `n-1` with its
`remaining_time` lowered by the quantum. -/
def rr_array (a : TaskArray) (n : Nat) : TaskArray := fun j =>
  if j + 1 < n then a (j + 1)
  else if j + 1 = n then
    { a 0 with remaining_time := (a 0).remaining_time - TIME_QUANTUM }
  else a j

/-- The registry length is within the capacity of the array. -/
def bounded (s : State) : Prop := 0 ≤ s.task_count ∧ s.task_count ≤ MAX_TASKS

/-- Every available counter is non-negative. -/
def avail_nonneg (s : State) : Prop :=
  0 ≤ s.system_res.available_ram ∧ 0 ≤ s.system_res.available_hdd ∧
    0 ≤ s.system_res.available_cores

/-- Every registered task has a non-negative footprint. -/
def usage_nonneg (s : State) : Prop :=
  ∀ j, j < s.task_count.toNat →
    0 ≤ (s.tasks j).ram_usage ∧ 0 ≤ (s.tasks j).hdd_usage ∧ 0 ≤ (s.tasks j).cpu_usage

/-- What every operation preserves: the result is defined, the registry stays
bounded and conservation holds; with a non-negative request (`hyp`) the
counters and the registered footprints stay non-negative. -/
def StepOK (s : State) (res : Option (State × List Event)) (hyp : Prop) : Prop :=
  ∃ r, res = some r ∧ bounded r.1 ∧ conserved r.1 ∧
    (hyp → avail_nonneg s → usage_nonneg s → avail_nonneg r.1 ∧ usage_nonneg r.1)

/-- A state with two registered tasks: totals (100, 50, 4) after "Notepad"
(50, 5, 1) and "Calculator" (20, 1, 1) were started in the background. -/
def two_tasks : State :=
  { tasks := fun j =>
      if j = 0 then
        { pid := -1, name := "Notepad", ram_usage := 50, hdd_usage := 5, cpu_usage := 1,
          is_running := 1, is_minimized := 0, start_time := 0, priority := 3,
          remaining_time := 4 }
      else if j = 1 then
        { pid := -1, name := "Calculator", ram_usage := 20, hdd_usage := 1, cpu_usage := 1,
          is_running := 1, is_minimized := 0, start_time := 0, priority := 4,
          remaining_time := 9 }
      else zeroTask,
    system_res :=
      { total_ram := 100, total_hdd := 50, total_cores := 4,
        available_ram := 30, available_hdd := 44, available_cores := 2 },
    task_count := 2,
    current_scheduler := SchedulingAlgorithm.FCFS }

/-- A state whose registry is full: fifty tasks of footprint (1, 1, 1) on totals
(100, 100, 100). -/
def full_registry : State :=
  { tasks := fun _ =>
      { pid := -1, name := "Time", ram_usage := 1, hdd_usage := 1, cpu_usage := 1,
        is_running := 1, is_minimized := 0, start_time := 0, priority := 1,
        remaining_time := 1 },
    system_res :=
      { total_ram := 100, total_hdd := 100, total_cores := 100,
        available_ram := 50, available_hdd := 50, available_cores := 50 },
    task_count := 50,
    current_scheduler := SchedulingAlgorithm.FCFS }

/-- A sequence of menu actions: three admissions (the second one is denied),
a policy change, two ticks and a close. -/
def sample_ops : List Op :=
  [Op.create_process "Notepad" 50 5 1 'y' 0 7 13,
   Op.create_process "Minesweeper" 60 5 1 'y' 0 7 13,
   Op.create_process "Calculator" 20 1 1 'Y' 0 3 0,
   Op.set_scheduling_algorithm (some 2),
   Op.schedule_tasks 0 0,
   Op.schedule_tasks 0 0,
   Op.close_task 0 0 0]

/-- A task after one Round-Robin quantum: `remaining_time -= TIME_QUANTUM`. -/
def aged (t : Task) : Task :=
  { t with remaining_time := t.remaining_time - TIME_QUANTUM }

/-- The Round-Robin tick on the registry seen as a list: the front task is aged
by the quantum and moved to the back, or dropped when its time is used up. -/
def rr_tick : List Task → List Task
  | [] => []
  | t :: ts => if t.remaining_time - TIME_QUANTUM ≤ 0 then ts else ts ++ [aged t]

/-- The registry of a state as a list. -/
def State.queue (s : State) : List Task := registry s.tasks s.task_count.toNat

/-- A Round-Robin state with two registered tasks whose remaining times are
`r0` and `r1`, on totals (100, 50, 4). -/
def rr_state (r0 r1 : Int) : State :=
  { tasks := fun j =>
      if j = 0 then
        { pid := -1, name := "Notepad", ram_usage := 50, hdd_usage := 5, cpu_usage := 1,
          is_running := 1, is_minimized := 0, start_time := 0, priority := 3,
          remaining_time := r0 }
      else if j = 1 then
        { pid := -1, name := "Calculator", ram_usage := 20, hdd_usage := 1, cpu_usage := 1,
          is_running := 1, is_minimized := 0, start_time := 0, priority := 4,
          remaining_time := r1 }
      else zeroTask,
    system_res :=
      { total_ram := 100, total_hdd := 50, total_cores := 4,
        available_ram := 30, available_hdd := 44, available_cores := 2 },
    task_count := 2,
    current_scheduler := SchedulingAlgorithm.ROUND_ROBIN }

/-- Lines 124-147 of `main`: the three totals are read with `scanf("%d", ..)`
(`none` when no integer is read, which prints an error and returns 1), then
`available = total` and `boot_os()`.  No other check is made on the values. -/
def main_init (ram hdd cores : Option Int) : Except String State :=
  match ram with
  | none => Except.error "Invalid input for RAM!"
  | some total_ram =>
    match hdd with
    | none => Except.error "Invalid input for HDD!"
    | some total_hdd =>
      match cores with
      | none => Except.error "Invalid input for CPU cores!"
      | some total_cores => Except.ok (init total_ram total_hdd total_cores)

/-- One round of Round-Robin ticks: one `schedule_tasks` call for each task
registered when the round starts. -/
def rr_round (kill_ret wait_ret : Int) (s : State) : Option State :=
  run s (List.replicate s.task_count.toNat (Op.schedule_tasks kill_ret wait_ret))

/-- The state after `k` consecutive rounds of Round-Robin ticks. -/
def rr_rounds (kill_ret wait_ret : Int) : Nat → State → Option State
  | 0, s => some s
  | k + 1, s => (rr_round kill_ret wait_ret s).bind (rr_rounds kill_ret wait_ret k)

/-- The tasks with more than `2 * k` units of time left, each with
`remaining_time` lowered by `2 * k`. -/
def survivors (k : Nat) (l : List Task) : List Task :=
  (l.filter fun t => decide (2 * (k : Int) < t.remaining_time)).map
    fun t => { t with remaining_time := t.remaining_time - 2 * (k : Int) }

/-- The array after exchanging entries `j` and `j + 1`. -/
def swap_adjacent (a : TaskArray) (j : Nat) : TaskArray :=
  Function.update (Function.update a j (a (j + 1))) (j + 1) (a j)

/-- Entries `lo .. n-1` are in non-increasing priority order. -/
def sorted_from (a : TaskArray) (lo n : Nat) : Prop :=
  ∀ k, lo ≤ k → k + 1 < n → (a (k + 1)).priority ≤ (a k).priority

/-- Every entry below `lo` has at least the priority of every entry in
`lo .. n-1`. -/
def above (a : TaskArray) (lo n : Nat) : Prop :=
  ∀ u v, u < lo → lo ≤ v → v < n → (a v).priority ≤ (a u).priority

/-- The tasks of priority `q`, in list order. -/
def with_priority (q : Int) (l : List Task) : List Task :=
  l.filter fun t => decide (t.priority = q)

/-- Insert `t` in front of the first task whose priority does not exceed its
own. -/
def stable_insert (t : Task) : List Task → List Task
  | [] => [t]
  | x :: xs => if x.priority ≤ t.priority then t :: x :: xs else x :: stable_insert t xs

/-- Reference for the spec's `sortDescendingByPriority()`: the stable
descending sort on `priority`, as an insertion sort that keeps every task in
front of the later tasks of equal priority. -/
def sortDescendingByPriority : List Task → List Task
  | [] => []
  | t :: l => stable_insert t (sortDescendingByPriority l)

/-- Non-increasing priority order. -/
def sorted_desc (l : List Task) : Prop :=
  l.Pairwise fun x y => y.priority ≤ x.priority

/-- A PRIORITY state with three registered tasks "A", "B", "C" whose priorities
are `p0`, `p1`, `p2`, on totals (100, 50, 4). -/
def priority_state (p0 p1 p2 : Int) : State :=
  { tasks := fun j =>
      if j = 0 then
        { pid := -1, name := "A", ram_usage := 10, hdd_usage := 1, cpu_usage := 1,
          is_running := 1, is_minimized := 0, start_time := 0, priority := p0,
          remaining_time := 4 }
      else if j = 1 then
        { pid := -1, name := "B", ram_usage := 10, hdd_usage := 1, cpu_usage := 1,
          is_running := 1, is_minimized := 0, start_time := 0, priority := p1,
          remaining_time := 4 }
      else if j = 2 then
        { pid := -1, name := "C", ram_usage := 10, hdd_usage := 1, cpu_usage := 1,
          is_running := 1, is_minimized := 0, start_time := 0, priority := p2,
          remaining_time := 4 }
      else zeroTask,
    system_res :=
      { total_ram := 100, total_hdd := 50, total_cores := 4,
        available_ram := 70, available_hdd := 47, available_cores := 1 },
    task_count := 3,
    current_scheduler := SchedulingAlgorithm.PRIORITY }

/-- Every registered task satisfies `P`. -/
def all_tasks (P : Task → Prop) (s : State) : Prop :=
  ∀ j, j < s.task_count.toNat → P (s.tasks j)

/-- The number of Round-Robin turns a task takes before it is evicted:
`max(1, ceil(remaining_time / 2))`, the ceiling written `(r + 1) / 2` with
flooring division. -/
def turns (t : Task) : Nat := max 1 ((t.remaining_time + 1) / 2).toNat

/-- The sum of `turns` over the queue. -/
def drain_ticks (l : List Task) : Nat := (l.map turns).sum

/-! ## Lemmas: array accesses, loops and the effect of each operation -/

theorem rd_nat (a : TaskArray) (k : Nat) (h : (k : Int) < MAX_TASKS) :
    rd a (k : Int) = some (a k) := by
  simp [rd, h]

theorem wr_nat (a : TaskArray) (k : Nat) (t : Task) (h : (k : Int) < MAX_TASKS) :
    wr a (k : Int) t = some (Function.update a k t) := by
  simp [wr, h]

theorem shift_loop_nat (n : Nat) : ∀ (k : Nat) (a : TaskArray), (k : Int) + n < MAX_TASKS →
    shift_loop n (k : Int) a
      = some (fun j => if k ≤ j ∧ j < k + n then a (j + 1) else a j) := by
  induction n with
  | zero =>
    intro k a _
    simp only [shift_loop, Option.some.injEq]
    funext j
    split
    · rename_i hj; omega
    · rfl
  | succ n ih =>
    intro k a h
    have h1 : ((k + 1 : Nat) : Int) < MAX_TASKS := by push_cast; omega
    have h2 : (k : Int) < MAX_TASKS := by omega
    have h3 : ((k + 1 : Nat) : Int) + n < MAX_TASKS := by push_cast; omega
    have e : (k : Int) + 1 = ((k + 1 : Nat) : Int) := by push_cast; rfl
    rw [shift_loop, e, rd_nat a (k + 1) h1, Option.bind, wr_nat a k _ h2]
    simp only [Option.bind]
    rw [ih (k + 1) _ h3]
    congr 1
    funext j
    by_cases hj : j = k
    · subst hj; simp [Function.update]
    · by_cases hj2 : k + 1 ≤ j ∧ j < k + 1 + n
      · have : k ≤ j ∧ j < k + (n + 1) := by omega
        have hne : j + 1 ≠ k := by omega
        simp [hj2, this, Function.update, hne]
      · have : ¬ (k ≤ j ∧ j < k + (n + 1)) := by omega
        simp [hj2, this, Function.update, hj]

theorem check_resources_false (r : SystemResources) (ram hdd cpu : Int)
    (h : r.available_ram < ram ∨ r.available_hdd < hdd ∨ r.available_cores < cpu) :
    check_resources r ram hdd cpu = false := by
  unfold check_resources
  rcases h with h | h | h
  · have : ¬ (r.available_ram ≥ ram) := by omega
    simp [this]
  · have : ¬ (r.available_hdd ≥ hdd) := by omega
    simp [this]
  · have : ¬ (r.available_cores ≥ cpu) := by omega
    simp [this]

theorem check_resources_true (r : SystemResources) (ram hdd cpu : Int)
    (h1 : ram ≤ r.available_ram) (h2 : hdd ≤ r.available_hdd) (h3 : cpu ≤ r.available_cores) :
    check_resources r ram hdd cpu = true := by
  simp [check_resources, h1, h2, h3]

theorem check_resources_iff (r : SystemResources) (ram hdd cpu : Int) :
    check_resources r ram hdd cpu = true ↔
      ram ≤ r.available_ram ∧ hdd ≤ r.available_hdd ∧ cpu ≤ r.available_cores := by
  simp [check_resources, and_assoc]

theorem create_process_denied (s : State) (task_name : String) (ram hdd cpu : Int)
    (bg : Char) (now r1 r2 : Int)
    (h : s.system_res.available_ram < ram ∨ s.system_res.available_hdd < hdd ∨
      s.system_res.available_cores < cpu) :
    create_process s task_name ram hdd cpu bg now r1 r2
      = some (s, [Event.print_error "Not enough resources to start this task!"]) := by
  simp [create_process, check_resources_false _ _ _ _ h]

theorem create_process_background (s : State) (task_name : String) (ram hdd cpu : Int)
    (bg : Char) (now r1 r2 : Int)
    (hres : check_resources s.system_res ram hdd cpu = true)
    (hbg : bg = 'y' ∨ bg = 'Y')
    (h0 : 0 ≤ s.task_count) (h50 : s.task_count < MAX_TASKS) :
    create_process s task_name ram hdd cpu bg now r1 r2
      = some ({ s with
                tasks := Function.update s.tasks s.task_count.toNat
                  { pid := -1, name := task_name, ram_usage := ram, hdd_usage := hdd,
                    cpu_usage := cpu, is_running := 1, is_minimized := 0,
                    start_time := now, priority := Int.tmod r1 5 + 1,
                    remaining_time := Int.tmod r2 10 + 1 },
                system_res :=
                  { s.system_res with
                    available_ram := s.system_res.available_ram - ram,
                    available_hdd := s.system_res.available_hdd - hdd,
                    available_cores := s.system_res.available_cores - cpu },
                task_count := s.task_count + 1 },
              [Event.system task_name,
               Event.print_success "Task started in background in a new terminal!"]) := by
  have hb : (decide (bg = 'y') || decide (bg = 'Y')) = true := by
    rcases hbg with h | h <;> simp [h]
  simp [create_process, hres, hb, h50, wr, h0, manage_resources]

theorem create_process_full (s : State) (task_name : String) (ram hdd cpu : Int)
    (bg : Char) (now r1 r2 : Int)
    (hres : check_resources s.system_res ram hdd cpu = true)
    (h50 : s.task_count = MAX_TASKS) :
    ∃ tr, create_process s task_name ram hdd cpu bg now r1 r2 = some (s, tr) := by
  have hn : ¬ (s.task_count < MAX_TASKS) := by omega
  unfold create_process
  simp only [hres, Bool.not_true, Bool.false_eq_true, if_false, hn]
  split <;> exact ⟨_, rfl⟩

theorem close_task_invalid (s : State) (i kill_ret wait_ret : Int)
    (h : i < 0 ∨ i ≥ s.task_count ∨ (0 ≤ i ∧ i < MAX_TASKS ∧ (s.tasks i.toNat).is_running = 0)) :
    close_task s i kill_ret wait_ret = some (s, [Event.print_error "Invalid task index!"]) := by
  unfold close_task
  by_cases hb : i < 0 ∨ i ≥ s.task_count
  · rw [if_pos hb]
  · rw [if_neg hb]
    rcases h with h | h | ⟨h0, h1, h2⟩
    · exact absurd (Or.inl h) hb
    · exact absurd (Or.inr h) hb
    · simp [rd, h0, h1, h2]

theorem close_task_failure (s : State) (i kill_ret wait_ret : Int)
    (h0 : 0 ≤ i) (h1 : i < s.task_count) (h2 : i < MAX_TASKS)
    (hr : (s.tasks i.toNat).is_running ≠ 0)
    (hf : kill_ret = -1 ∨ (kill_ret ≠ -1 ∧ wait_ret = -1)) :
    ∃ tr, close_task s i kill_ret wait_ret = some (s, tr) := by
  have hb : ¬ (i < 0 ∨ i ≥ s.task_count) := by omega
  unfold close_task
  rw [if_neg hb]
  simp only [rd, h0, h2, and_self, if_true, Option.bind, hr, if_false]
  rcases hf with h | ⟨h, h'⟩
  · rw [if_pos h]; exact ⟨_, rfl⟩
  · rw [if_neg h, if_pos h']; exact ⟨_, rfl⟩

theorem close_task_success (s : State) (i kill_ret wait_ret : Int)
    (h0 : 0 ≤ i) (h1 : i < s.task_count) (h50 : s.task_count ≤ MAX_TASKS)
    (hr : (s.tasks i.toNat).is_running ≠ 0)
    (hk : kill_ret ≠ -1) (hw : wait_ret ≠ -1) :
    close_task s i kill_ret wait_ret
      = some ({ s with
                tasks := fun j =>
                  if i.toNat ≤ j ∧ j < (s.task_count - 1).toNat then s.tasks (j + 1)
                  else s.tasks j,
                system_res :=
                  { s.system_res with
                    available_ram :=
                      s.system_res.available_ram + (s.tasks i.toNat).ram_usage,
                    available_hdd :=
                      s.system_res.available_hdd + (s.tasks i.toNat).hdd_usage,
                    available_cores :=
                      s.system_res.available_cores + (s.tasks i.toNat).cpu_usage },
                task_count := s.task_count - 1 },
              [Event.kill (s.tasks i.toNat).pid, Event.waitpid (s.tasks i.toNat).pid,
               Event.print_success "Task closed successfully!"]) := by
  have hb : ¬ (i < 0 ∨ i ≥ s.task_count) := by omega
  have h2 : i < MAX_TASKS := by omega
  unfold close_task
  rw [if_neg hb]
  simp only [rd, h0, h2, and_self, if_true, Option.bind, hr, if_false, hk, hw]
  have hi : i = ((i.toNat : Nat) : Int) := by omega
  have hsl := shift_loop_nat (s.task_count - 1 - i).toNat i.toNat s.tasks (by omega)
  rw [← hi] at hsl
  rw [hsl]
  simp only [manage_resources]
  have e : i.toNat + (s.task_count - 1 - i).toNat = (s.task_count - 1).toNat := by omega
  simp [e]

theorem usage_sum_eq_registry (f : Task → Int) (a : TaskArray) (n : Nat) :
    usage_sum f a n = ((registry a n).map f).sum := by
  simp [usage_sum, registry, List.map_map, Function.comp_def]

theorem registry_congr (a b : TaskArray) (n : Nat) (h : ∀ j, j < n → a j = b j) :
    registry a n = registry b n := by
  unfold registry
  apply List.map_congr_left
  intro j hj
  exact h j (List.mem_range.mp hj)

theorem range_map_swap_perm (m j : Nat) (h : j + 1 < m) :
    List.Perm ((List.range m).map (Equiv.swap j (j + 1))) (List.range m) := by
  rw [List.perm_ext_iff_of_nodup
    ((List.nodup_range m).map (Equiv.swap j (j + 1)).injective) (List.nodup_range m)]
  intro x
  simp only [List.mem_map, List.mem_range]
  constructor
  · rintro ⟨y, hy, rfl⟩
    rw [Equiv.swap_apply_def]
    split
    · omega
    · split <;> omega
  · intro hx
    refine ⟨Equiv.swap j (j + 1) x, ?_, Equiv.swap_apply_self _ _ _⟩
    rw [Equiv.swap_apply_def]
    split
    · omega
    · split <;> omega

theorem registry_swap (a : TaskArray) (m j : Nat) (h : j + 1 < m) :
    List.Perm
      (registry (Function.update (Function.update a j (a (j + 1))) (j + 1) (a j)) m)
      (registry a m) := by
  have e : Function.update (Function.update a j (a (j + 1))) (j + 1) (a j)
      = a ∘ (Equiv.swap j (j + 1)) := by
    funext k
    simp only [Function.comp_apply, Equiv.swap_apply_def, Function.update]
    by_cases h1 : k = j + 1
    · subst h1; simp
    · by_cases h2 : k = j
      · subst h2; simp
      · simp [h1, h2]
  rw [e]
  unfold registry
  rw [← List.map_map]
  exact (range_map_swap_perm m j h).map a

theorem priority_inner_spec (m : Nat) (hm : (m : Int) ≤ MAX_TASKS) (n : Nat) :
    ∀ (j : Nat) (a : TaskArray), j + n < m →
      ∃ b, priority_inner n (j : Int) a = some b ∧
        List.Perm (registry b m) (registry a m) ∧ ∀ k, m ≤ k → b k = a k := by
  induction n with
  | zero => intro j a _; exact ⟨a, rfl, List.Perm.refl _, fun _ _ => rfl⟩
  | succ n ih =>
    intro j a h
    have h1 : ((j + 1 : Nat) : Int) < MAX_TASKS := by push_cast; omega
    have h2 : (j : Int) < MAX_TASKS := by omega
    have e : (j : Int) + 1 = ((j + 1 : Nat) : Int) := by push_cast; rfl
    rw [priority_inner, e, rd_nat a j h2, rd_nat a (j + 1) h1]
    simp only [Option.bind]
    split
    · rw [wr_nat _ j _ h2]
      simp only [Option.bind]
      rw [wr_nat _ (j + 1) _ h1]
      simp only [Option.bind]
      obtain ⟨b, hb, hp, hk⟩ := ih (j + 1) _ (by omega : j + 1 + n < m)
      refine ⟨b, hb, hp.trans (registry_swap a m j (by omega)), ?_⟩
      intro k hk'
      rw [hk k hk']
      have h3 : k ≠ j + 1 := by omega
      have h4 : k ≠ j := by omega
      simp [Function.update, h3, h4]
    · exact ih (j + 1) a (by omega)

theorem priority_outer_spec (m : Nat) (hm : (m : Int) ≤ MAX_TASKS) (n : Nat) :
    ∀ (i : Nat) (a : TaskArray), i + n + 1 ≤ m ∨ n = 0 →
      ∃ b, priority_outer (m : Int) n (i : Int) a = some b ∧
        List.Perm (registry b m) (registry a m) ∧ ∀ k, m ≤ k → b k = a k := by
  induction n with
  | zero => intro i a _; exact ⟨a, rfl, List.Perm.refl _, fun _ _ => rfl⟩
  | succ n ih =>
    intro i a h
    have hi : i + (n + 1) + 1 ≤ m := by omega
    have e : (i : Int) + 1 = ((i + 1 : Nat) : Int) := by push_cast; rfl
    have hc : ((m : Int) - i - 1).toNat = m - i - 1 := by omega
    rw [priority_outer, hc]
    obtain ⟨b, hb, hp, hk⟩ := priority_inner_spec m hm (m - i - 1) 0 a (by omega)
    have hb0 : priority_inner (m - i - 1) 0 a = some b := by simpa using hb
    rw [hb0]
    simp only [Option.bind]
    rw [e]
    obtain ⟨c, hc1, hp1, hk1⟩ := ih (i + 1) b (by omega)
    exact ⟨c, hc1, hp1.trans hp, fun k hk' => by rw [hk1 k hk', hk k hk']⟩

theorem schedule_tasks_rr (s : State) (kill_ret wait_ret : Int)
    (hs : s.current_scheduler = SchedulingAlgorithm.ROUND_ROBIN)
    (h0 : 0 < s.task_count) (h50 : s.task_count ≤ MAX_TASKS) :
    schedule_tasks s kill_ret wait_ret
      = some (if (s.tasks 0).remaining_time - TIME_QUANTUM ≤ 0 then
          ({ s with
             tasks := rr_array s.tasks s.task_count.toNat,
             system_res :=
               { s.system_res with
                 available_ram := s.system_res.available_ram + (s.tasks 0).ram_usage,
                 available_hdd := s.system_res.available_hdd + (s.tasks 0).hdd_usage,
                 available_cores := s.system_res.available_cores + (s.tasks 0).cpu_usage },
             task_count := s.task_count - 1 },
           [Event.kill (s.tasks 0).pid, Event.waitpid (s.tasks 0).pid])
        else ({ s with tasks := rr_array s.tasks s.task_count.toNat }, [])) := by
  obtain ⟨a, res, tc, cs⟩ := s
  simp only at hs h0 h50
  subst hs
  obtain ⟨n, hn⟩ : ∃ n : Nat, tc = (n : Int) + 1 := ⟨(tc - 1).toNat, by omega⟩
  subst hn
  have hne : ¬ ((n : Int) + 1 = 0) := by omega
  have hz : ((0 : Nat) : Int) < MAX_TASKS := by simp; omega
  have hl : (n : Int) < MAX_TASKS := by omega
  have e1 : (n : Int) + 1 - 1 = n := by omega
  have e2 : ((n : Int) + 1).toNat = n + 1 := by omega
  have hrd := rd_nat a 0 hz
  have hsl := shift_loop_nat n 0 a (by simp; omega)
  simp only [Nat.cast_zero] at hrd hsl
  unfold schedule_tasks
  simp only [hne, if_false, e1, e2, Int.toNat_ofNat, hrd, hsl, Option.bind, wr_nat _ _ _ hl,
    rd_nat _ _ hl, Function.update_same, manage_resources]
  have ea : Function.update
      (Function.update (fun j => if 0 ≤ j ∧ j < 0 + n then a (j + 1) else a j) n (a 0))
      n { a 0 with remaining_time := (a 0).remaining_time - TIME_QUANTUM }
      = rr_array a (n + 1) := by
    funext j
    simp only [rr_array, Function.update, eq_rec_constant, dite_eq_ite]
    split_ifs <;> first | rfl | omega
  rw [ea]
  split <;> simp

theorem schedule_tasks_priority (s : State) (kill_ret wait_ret : Int)
    (hs : s.current_scheduler = SchedulingAlgorithm.PRIORITY)
    (h0 : 0 ≤ s.task_count) (h50 : s.task_count ≤ MAX_TASKS) :
    ∃ b, schedule_tasks s kill_ret wait_ret = some ({ s with tasks := b }, []) ∧
      List.Perm (registry b s.task_count.toNat) (registry s.tasks s.task_count.toNat) ∧
      ∀ k, s.task_count.toNat ≤ k → b k = s.tasks k := by
  unfold schedule_tasks
  by_cases hz : s.task_count = 0
  · rw [if_pos hz]
    exact ⟨s.tasks, rfl, List.Perm.refl _, fun _ _ => rfl⟩
  · rw [if_neg hz, hs]
    have em : s.task_count = ((s.task_count.toNat : Nat) : Int) := by omega
    obtain ⟨b, hb, hp, hk⟩ := priority_outer_spec s.task_count.toNat (by omega)
      (s.task_count - 1).toNat 0 s.tasks (by omega)
    rw [← em] at hb
    simp only [Nat.cast_zero] at hb
    simp only [hb, Option.bind]
    exact ⟨b, rfl, hp, hk⟩

theorem schedule_tasks_noop (s : State) (kill_ret wait_ret : Int)
    (h : s.task_count = 0 ∨ s.current_scheduler = SchedulingAlgorithm.FCFS) :
    schedule_tasks s kill_ret wait_ret = some (s, []) := by
  unfold schedule_tasks
  by_cases hz : s.task_count = 0
  · rw [if_pos hz]
  · rw [if_neg hz]
    rcases h with h | h
    · exact absurd h hz
    · rw [h]

theorem flag_invalid (s : State) (i : Int) :
    (i < 0 ∨ i ≥ s.task_count ∨ (0 ≤ i ∧ i < MAX_TASKS ∧ (s.tasks i.toNat).is_running = 0)) →
    minimize_task s i = some (s, [Event.print_error "Invalid task index!"]) ∧
    restore_task s i = some (s, [Event.print_error "Invalid task index!"]) := by
  intro h
  unfold minimize_task restore_task
  by_cases hb : i < 0 ∨ i ≥ s.task_count
  · rw [if_pos hb, if_pos hb]; exact ⟨rfl, rfl⟩
  · rw [if_neg hb, if_neg hb]
    rcases h with h | h | ⟨h0, h1, h2⟩
    · exact absurd (Or.inl h) hb
    · exact absurd (Or.inr h) hb
    · simp [rd, h0, h1, h2]

theorem flag_valid (s : State) (i : Int)
    (h0 : 0 ≤ i) (h1 : i < s.task_count) (h2 : i < MAX_TASKS)
    (hr : (s.tasks i.toNat).is_running ≠ 0) :
    minimize_task s i
      = some ({ s with
                tasks := Function.update s.tasks i.toNat
                  ({ s.tasks i.toNat with is_minimized := 1 }) },
              [Event.print_success "Task minimized successfully!"]) ∧
    restore_task s i
      = some ({ s with
                tasks := Function.update s.tasks i.toNat
                  ({ s.tasks i.toNat with is_minimized := 0 }) },
              [Event.print_success "Task restored successfully!"]) := by
  have hb : ¬ (i < 0 ∨ i ≥ s.task_count) := by omega
  unfold minimize_task restore_task
  rw [if_neg hb, if_neg hb]
  simp [rd, wr, h0, h2, hr]

theorem usage_sum_succ (f : Task → Int) (a : TaskArray) (n : Nat) :
    usage_sum f a (n + 1) = usage_sum f a n + f (a n) := by
  simp [usage_sum, List.range_succ]

theorem usage_sum_congr (f : Task → Int) (a b : TaskArray) (n : Nat)
    (h : ∀ j, j < n → f (a j) = f (b j)) : usage_sum f a n = usage_sum f b n := by
  unfold usage_sum
  congr 1
  apply List.map_congr_left
  intro j hj
  exact h j (List.mem_range.mp hj)

theorem usage_sum_remove (f : Task → Int) (a b : TaskArray) (i : Nat) :
    ∀ n, i ≤ n → (∀ j, j < i → f (b j) = f (a j)) →
      (∀ j, i ≤ j → j < n → f (b j) = f (a (j + 1))) →
      usage_sum f a (n + 1) = usage_sum f b n + f (a i) := by
  intro n
  induction n with
  | zero =>
    intro hi _ _
    have : i = 0 := by omega
    subst this
    rw [usage_sum_succ]
    rfl
  | succ n ih =>
    intro hi h1 h2
    by_cases hin : i = n + 1
    · subst hin
      rw [usage_sum_succ f a (n + 1), usage_sum_congr f a b (n + 1) (fun j hj => (h1 j hj).symm)]
    · rw [usage_sum_succ f a (n + 1), usage_sum_succ f b n,
        ih (by omega) h1 (fun j hj hjn => h2 j hj (by omega)), h2 n (by omega) (by omega)]
      ring

theorem usage_sum_admit (f : Task → Int) (a : TaskArray) (n : Nat) (t : Task) :
    usage_sum f (Function.update a n t) (n + 1) = usage_sum f a n + f t := by
  rw [usage_sum_succ, Function.update_same]
  congr 1
  apply usage_sum_congr
  intro j hj
  rw [Function.update_noteq (by omega)]

theorem usage_sum_close (f : Task → Int) (a : TaskArray) (i m : Nat) (hi : i ≤ m) :
    usage_sum f a (m + 1)
      = usage_sum f (fun j => if i ≤ j ∧ j < m then a (j + 1) else a j) m + f (a i) := by
  apply usage_sum_remove f a _ i m hi
  · intro j hj
    have : ¬ (i ≤ j ∧ j < m) := by omega
    simp only [this, if_false]
  · intro j hj hjm
    simp only [hj, hjm, and_self, if_true]

theorem usage_sum_rr_evict (f : Task → Int) (a : TaskArray) (m : Nat) :
    usage_sum f a (m + 1) = usage_sum f (rr_array a (m + 1)) m + f (a 0) := by
  apply usage_sum_remove f a _ 0 m (Nat.zero_le m)
  · intro j hj; omega
  · intro j _ hjm
    have : j + 1 < m + 1 := by omega
    simp only [rr_array, this, if_true]

theorem usage_sum_rr_keep (f : Task → Int) (a : TaskArray) (m : Nat)
    (hf : f { a 0 with remaining_time := (a 0).remaining_time - TIME_QUANTUM } = f (a 0)) :
    usage_sum f (rr_array a (m + 1)) (m + 1) = usage_sum f a (m + 1) := by
  rw [usage_sum_succ, usage_sum_rr_evict f a m]
  congr 1
  simp only [rr_array, lt_self_iff_false, if_false, if_true]
  exact hf

theorem usage_sum_flag (f : Task → Int) (a : TaskArray) (i n : Nat) (t : Task)
    (hf : f t = f (a i)) : usage_sum f (Function.update a i t) n = usage_sum f a n := by
  apply usage_sum_congr
  intro j _
  by_cases h : j = i
  · subst h; rw [Function.update_same, hf]
  · rw [Function.update_noteq h]

theorem usage_sum_perm (f : Task → Int) (a b : TaskArray) (n : Nat)
    (h : List.Perm (registry b n) (registry a n)) : usage_sum f b n = usage_sum f a n := by
  rw [usage_sum_eq_registry, usage_sum_eq_registry]
  exact (h.map f).sum_eq

theorem mem_registry (a : TaskArray) (n : Nat) (t : Task) :
    t ∈ registry a n ↔ ∃ j, j < n ∧ a j = t := by
  simp [registry]

theorem stepOK_same (s : State) (tr : List Event) (hyp : Prop)
    (hb : bounded s) (hc : conserved s) : StepOK s (some (s, tr)) hyp :=
  ⟨(s, tr), rfl, hb, hc, fun _ h1 h2 => ⟨h1, h2⟩⟩

theorem create_process_ok (s : State) (task_name : String) (ram hdd cpu : Int)
    (bg : Char) (now r1 r2 : Int) (hb : bounded s) (hc : conserved s) :
    StepOK s (create_process s task_name ram hdd cpu bg now r1 r2)
      (registers s ram hdd cpu bg → 0 ≤ ram ∧ 0 ≤ hdd ∧ 0 ≤ cpu) := by
  by_cases hres : check_resources s.system_res ram hdd cpu = true
  · by_cases hbg : bg = 'y' ∨ bg = 'Y'
    · by_cases h50 : s.task_count < MAX_TASKS
      · rw [create_process_background s task_name ram hdd cpu bg now r1 r2 hres hbg hb.1 h50]
        have e : (s.task_count + 1).toNat = s.task_count.toNat + 1 := by
          have := hb.1; omega
        obtain ⟨c1, c2, c3⟩ := hc
        obtain ⟨a1, a2, a3⟩ := (check_resources_iff _ _ _ _).mp hres
        refine ⟨_, rfl, ⟨?_, ?_⟩, ⟨?_, ?_, ?_⟩, ?_⟩
        · show 0 ≤ s.task_count + 1
          have := hb.1; omega
        · show s.task_count + 1 ≤ MAX_TASKS
          omega
        · show s.system_res.available_ram - ram + usage_sum Task.ram_usage _ _ = _
          simp only [e, usage_sum_admit]
          omega
        · show s.system_res.available_hdd - hdd + usage_sum Task.hdd_usage _ _ = _
          simp only [e, usage_sum_admit]
          omega
        · show s.system_res.available_cores - cpu + usage_sum Task.cpu_usage _ _ = _
          simp only [e, usage_sum_admit]
          omega
        · intro hn _ hu
          refine ⟨⟨?_, ?_, ?_⟩, ?_⟩
          · show 0 ≤ s.system_res.available_ram - ram
            omega
          · show 0 ≤ s.system_res.available_hdd - hdd
            omega
          · show 0 ≤ s.system_res.available_cores - cpu
            omega
          · intro j hj
            simp only [e] at hj
            simp only
            by_cases hjn : j = s.task_count.toNat
            · subst hjn
              simp only [Function.update_same]
              exact hn ⟨hres, hbg, h50⟩
            · rw [Function.update_noteq hjn]
              exact hu j (by omega)
      · have hfull : s.task_count = MAX_TASKS := by have := hb.2; omega
        obtain ⟨tr, htr⟩ := create_process_full s task_name ram hdd cpu bg now r1 r2 hres hfull
        rw [htr]
        exact stepOK_same s tr _ hb hc
    · have hbg' : (decide (bg = 'y') || decide (bg = 'Y')) = false := by
        simp only [not_or] at hbg
        simp [hbg.1, hbg.2]
      have : create_process s task_name ram hdd cpu bg now r1 r2
          = some (s, [Event.foreground task_name]) := by
        simp [create_process, hres, hbg']
      rw [this]
      exact stepOK_same s _ _ hb hc
  · have : create_process s task_name ram hdd cpu bg now r1 r2
        = some (s, [Event.print_error "Not enough resources to start this task!"]) := by
      simp [create_process, hres]
    rw [this]
    exact stepOK_same s _ _ hb hc

theorem close_task_ok (s : State) (i kill_ret wait_ret : Int)
    (hb : bounded s) (hc : conserved s) :
    StepOK s (close_task s i kill_ret wait_ret) True := by
  obtain ⟨b0, b50⟩ := hb
  by_cases hinv : i < 0 ∨ i ≥ s.task_count ∨
      (0 ≤ i ∧ i < MAX_TASKS ∧ (s.tasks i.toNat).is_running = 0)
  · rw [close_task_invalid s i kill_ret wait_ret hinv]
    exact stepOK_same s _ _ ⟨b0, b50⟩ hc
  · have h0 : 0 ≤ i := by omega
    have h1 : i < s.task_count := by omega
    have h2 : i < MAX_TASKS := by omega
    have hr : (s.tasks i.toNat).is_running ≠ 0 := by
      intro h; exact hinv (Or.inr (Or.inr ⟨h0, h2, h⟩))
    by_cases hf : kill_ret = -1 ∨ (kill_ret ≠ -1 ∧ wait_ret = -1)
    · obtain ⟨tr, htr⟩ := close_task_failure s i kill_ret wait_ret h0 h1 h2 hr hf
      rw [htr]
      exact stepOK_same s tr _ ⟨b0, b50⟩ hc
    · have hk : kill_ret ≠ -1 := fun h => hf (Or.inl h)
      have hw : wait_ret ≠ -1 := fun h => hf (Or.inr ⟨hk, h⟩)
      rw [close_task_success s i kill_ret wait_ret h0 h1 b50 hr hk hw]
      obtain ⟨m, hm⟩ : ∃ m : Nat, s.task_count = (m : Int) + 1 :=
        ⟨(s.task_count - 1).toNat, by omega⟩
      have e1 : (s.task_count - 1).toNat = m := by omega
      have e2 : s.task_count.toNat = m + 1 := by omega
      have him : i.toNat ≤ m := by omega
      obtain ⟨c1, c2, c3⟩ := hc
      rw [e2] at c1 c2 c3
      rw [usage_sum_close _ _ i.toNat m him] at c1 c2 c3
      refine ⟨_, rfl, ⟨?_, ?_⟩, ⟨?_, ?_, ?_⟩, ?_⟩
      · show 0 ≤ s.task_count - 1
        omega
      · show s.task_count - 1 ≤ MAX_TASKS
        omega
      · show s.system_res.available_ram + (s.tasks i.toNat).ram_usage
          + usage_sum Task.ram_usage _ _ = _
        simp only [e1]
        omega
      · show s.system_res.available_hdd + (s.tasks i.toNat).hdd_usage
          + usage_sum Task.hdd_usage _ _ = _
        simp only [e1]
        omega
      · show s.system_res.available_cores + (s.tasks i.toNat).cpu_usage
          + usage_sum Task.cpu_usage _ _ = _
        simp only [e1]
        omega
      · intro _ ha hu
        have hui := hu i.toNat (by omega)
        obtain ⟨a1, a2, a3⟩ := ha
        refine ⟨⟨?_, ?_, ?_⟩, ?_⟩
        · show 0 ≤ s.system_res.available_ram + (s.tasks i.toNat).ram_usage
          omega
        · show 0 ≤ s.system_res.available_hdd + (s.tasks i.toNat).hdd_usage
          omega
        · show 0 ≤ s.system_res.available_cores + (s.tasks i.toNat).cpu_usage
          omega
        · intro j hj
          simp only [e1] at hj
          simp only [e1]
          split
          · exact hu (j + 1) (by omega)
          · exact hu j (by omega)

theorem flag_update_ok (s : State) (i : Nat) (t : Task) (tr : List Event)
    (hb : bounded s) (hc : conserved s)
    (h1 : t.ram_usage = (s.tasks i).ram_usage) (h2 : t.hdd_usage = (s.tasks i).hdd_usage)
    (h3 : t.cpu_usage = (s.tasks i).cpu_usage) :
    StepOK s (some ({ s with tasks := Function.update s.tasks i t }, tr)) True := by
  obtain ⟨c1, c2, c3⟩ := hc
  refine ⟨_, rfl, hb, ⟨?_, ?_, ?_⟩, ?_⟩
  · show s.system_res.available_ram + usage_sum Task.ram_usage _ _ = _
    rw [usage_sum_flag _ _ _ _ _ h1]; exact c1
  · show s.system_res.available_hdd + usage_sum Task.hdd_usage _ _ = _
    rw [usage_sum_flag _ _ _ _ _ h2]; exact c2
  · show s.system_res.available_cores + usage_sum Task.cpu_usage _ _ = _
    rw [usage_sum_flag _ _ _ _ _ h3]; exact c3
  · intro _ ha hu
    refine ⟨ha, ?_⟩
    intro j hj
    show 0 ≤ (Function.update s.tasks i t j).ram_usage ∧
      0 ≤ (Function.update s.tasks i t j).hdd_usage ∧
      0 ≤ (Function.update s.tasks i t j).cpu_usage
    by_cases h : j = i
    · subst h
      rw [Function.update_same, h1, h2, h3]
      exact hu j hj
    · rw [Function.update_noteq h]
      exact hu j hj

theorem minimize_task_ok (s : State) (i : Int) (hb : bounded s) (hc : conserved s) :
    StepOK s (minimize_task s i) True := by
  by_cases hinv : i < 0 ∨ i ≥ s.task_count ∨
      (0 ≤ i ∧ i < MAX_TASKS ∧ (s.tasks i.toNat).is_running = 0)
  · rw [(flag_invalid s i hinv).1]
    exact stepOK_same s _ _ hb hc
  · have h0 : 0 ≤ i := by omega
    have h1 : i < s.task_count := by omega
    have h2 : i < MAX_TASKS := by have := hb.2; omega
    have hr : (s.tasks i.toNat).is_running ≠ 0 := by
      intro h; exact hinv (Or.inr (Or.inr ⟨h0, h2, h⟩))
    rw [(flag_valid s i h0 h1 h2 hr).1]
    exact flag_update_ok s i.toNat _ _ hb hc rfl rfl rfl

theorem restore_task_ok (s : State) (i : Int) (hb : bounded s) (hc : conserved s) :
    StepOK s (restore_task s i) True := by
  by_cases hinv : i < 0 ∨ i ≥ s.task_count ∨
      (0 ≤ i ∧ i < MAX_TASKS ∧ (s.tasks i.toNat).is_running = 0)
  · rw [(flag_invalid s i hinv).2]
    exact stepOK_same s _ _ hb hc
  · have h0 : 0 ≤ i := by omega
    have h1 : i < s.task_count := by omega
    have h2 : i < MAX_TASKS := by have := hb.2; omega
    have hr : (s.tasks i.toNat).is_running ≠ 0 := by
      intro h; exact hinv (Or.inr (Or.inr ⟨h0, h2, h⟩))
    rw [(flag_valid s i h0 h1 h2 hr).2]
    exact flag_update_ok s i.toNat _ _ hb hc rfl rfl rfl

theorem set_scheduling_algorithm_frame (s : State) (choice : Option Int) :
    (set_scheduling_algorithm s choice).1.tasks = s.tasks ∧
    (set_scheduling_algorithm s choice).1.system_res = s.system_res ∧
    (set_scheduling_algorithm s choice).1.task_count = s.task_count := by
  unfold set_scheduling_algorithm
  cases choice with
  | none => exact ⟨rfl, rfl, rfl⟩
  | some c =>
    simp only
    split_ifs <;> exact ⟨rfl, rfl, rfl⟩

theorem stepOK_frame (s s1 : State) (tr : List Event) (hyp : Prop)
    (ht : s1.tasks = s.tasks) (hr : s1.system_res = s.system_res)
    (hn : s1.task_count = s.task_count) (hb : bounded s) (hc : conserved s) :
    StepOK s (some (s1, tr)) hyp := by
  refine ⟨_, rfl, ?_, ?_, ?_⟩
  · show 0 ≤ s1.task_count ∧ s1.task_count ≤ MAX_TASKS
    rw [hn]; exact hb
  · unfold conserved
    simp only [ht, hr, hn]
    exact hc
  · intro _ ha hu
    unfold avail_nonneg usage_nonneg
    simp only [ht, hr, hn]
    exact ⟨ha, hu⟩

theorem schedule_tasks_ok (s : State) (kill_ret wait_ret : Int)
    (hb : bounded s) (hc : conserved s) :
    StepOK s (schedule_tasks s kill_ret wait_ret) True := by
  obtain ⟨b0, b50⟩ := hb
  by_cases hz : s.task_count = 0
  · rw [schedule_tasks_noop s _ _ (Or.inl hz)]
    exact stepOK_same s _ _ ⟨b0, b50⟩ hc
  · cases hs : s.current_scheduler with
    | FCFS =>
      rw [schedule_tasks_noop s _ _ (Or.inr hs)]
      exact stepOK_same s _ _ ⟨b0, b50⟩ hc
    | ROUND_ROBIN =>
      rw [schedule_tasks_rr s _ _ hs (by omega) b50]
      obtain ⟨m, hm⟩ : ∃ m : Nat, s.task_count = (m : Int) + 1 :=
        ⟨(s.task_count - 1).toNat, by omega⟩
      have e1 : (s.task_count - 1).toNat = m := by omega
      have e2 : s.task_count.toNat = m + 1 := by omega
      obtain ⟨c1, c2, c3⟩ := hc
      rw [e2] at c1 c2 c3
      by_cases hrem : (s.tasks 0).remaining_time - TIME_QUANTUM ≤ 0
      · rw [if_pos hrem]
        rw [usage_sum_rr_evict] at c1 c2 c3
        refine ⟨_, rfl, ⟨?_, ?_⟩, ⟨?_, ?_, ?_⟩, ?_⟩
        · show 0 ≤ s.task_count - 1
          omega
        · show s.task_count - 1 ≤ MAX_TASKS
          omega
        · show s.system_res.available_ram + (s.tasks 0).ram_usage
            + usage_sum Task.ram_usage _ _ = _
          simp only [e1, e2]
          omega
        · show s.system_res.available_hdd + (s.tasks 0).hdd_usage
            + usage_sum Task.hdd_usage _ _ = _
          simp only [e1, e2]
          omega
        · show s.system_res.available_cores + (s.tasks 0).cpu_usage
            + usage_sum Task.cpu_usage _ _ = _
          simp only [e1, e2]
          omega
        · intro _ ha hu
          have hu0 := hu 0 (by omega)
          obtain ⟨a1, a2, a3⟩ := ha
          refine ⟨⟨?_, ?_, ?_⟩, ?_⟩
          · show 0 ≤ s.system_res.available_ram + (s.tasks 0).ram_usage
            omega
          · show 0 ≤ s.system_res.available_hdd + (s.tasks 0).hdd_usage
            omega
          · show 0 ≤ s.system_res.available_cores + (s.tasks 0).cpu_usage
            omega
          · intro j hj
            simp only [e1] at hj
            have hj' : j + 1 < s.task_count.toNat := by omega
            simp only [rr_array, hj', if_true]
            exact hu (j + 1) hj'
      · rw [if_neg hrem]
        refine ⟨_, rfl, ⟨b0, b50⟩, ⟨?_, ?_, ?_⟩, ?_⟩
        · show s.system_res.available_ram + usage_sum Task.ram_usage _ _ = _
          simp only [e2]
          rw [usage_sum_rr_keep _ _ _ rfl]; exact c1
        · show s.system_res.available_hdd + usage_sum Task.hdd_usage _ _ = _
          simp only [e2]
          rw [usage_sum_rr_keep _ _ _ rfl]; exact c2
        · show s.system_res.available_cores + usage_sum Task.cpu_usage _ _ = _
          simp only [e2]
          rw [usage_sum_rr_keep _ _ _ rfl]; exact c3
        · intro _ ha hu
          refine ⟨ha, ?_⟩
          intro j hj
          have hj2 : j < s.task_count.toNat := hj
          show 0 ≤ (rr_array s.tasks s.task_count.toNat j).ram_usage ∧
            0 ≤ (rr_array s.tasks s.task_count.toNat j).hdd_usage ∧
            0 ≤ (rr_array s.tasks s.task_count.toNat j).cpu_usage
          unfold rr_array
          by_cases h1 : j + 1 < s.task_count.toNat
          · simp only [h1, if_true]
            exact hu (j + 1) h1
          · have h2 : j + 1 = s.task_count.toNat := by omega
            rw [if_neg h1, if_pos h2]
            exact hu 0 (by omega)
    | PRIORITY =>
      obtain ⟨b, hb1, hp, _⟩ := schedule_tasks_priority s kill_ret wait_ret hs b0 b50
      rw [hb1]
      obtain ⟨c1, c2, c3⟩ := hc
      refine ⟨_, rfl, ⟨b0, b50⟩, ⟨?_, ?_, ?_⟩, ?_⟩
      · show s.system_res.available_ram + usage_sum Task.ram_usage b _ = _
        rw [usage_sum_perm _ _ _ _ hp]; exact c1
      · show s.system_res.available_hdd + usage_sum Task.hdd_usage b _ = _
        rw [usage_sum_perm _ _ _ _ hp]; exact c2
      · show s.system_res.available_cores + usage_sum Task.cpu_usage b _ = _
        rw [usage_sum_perm _ _ _ _ hp]; exact c3
      · intro _ ha hu
        refine ⟨ha, ?_⟩
        intro j hj
        have hj2 : j < s.task_count.toNat := hj
        have hmem : b j ∈ registry s.tasks s.task_count.toNat :=
          hp.mem_iff.mp ((mem_registry b _ _).mpr ⟨j, hj2, rfl⟩)
        obtain ⟨k, hk, hkj⟩ := (mem_registry _ _ _).mp hmem
        show 0 ≤ (b j).ram_usage ∧ 0 ≤ (b j).hdd_usage ∧ 0 ≤ (b j).cpu_usage
        rw [← hkj]
        exact hu k hk

theorem step_ok (s : State) (op : Op) (hb : bounded s) (hc : conserved s) :
    StepOK s (step s op) (op_nonneg s op) := by
  cases op with
  | create_process task_name ram hdd cpu bg now r1 r2 =>
    exact create_process_ok s task_name ram hdd cpu bg now r1 r2 hb hc
  | close_task i k w =>
    obtain ⟨r, h1, h2, h3, h4⟩ := close_task_ok s i k w hb hc
    exact ⟨r, h1, h2, h3, fun _ => h4 trivial⟩
  | minimize_task i =>
    obtain ⟨r, h1, h2, h3, h4⟩ := minimize_task_ok s i hb hc
    exact ⟨r, h1, h2, h3, fun _ => h4 trivial⟩
  | restore_task i =>
    obtain ⟨r, h1, h2, h3, h4⟩ := restore_task_ok s i hb hc
    exact ⟨r, h1, h2, h3, fun _ => h4 trivial⟩
  | set_scheduling_algorithm choice =>
    obtain ⟨f1, f2, f3⟩ := set_scheduling_algorithm_frame s choice
    exact stepOK_frame s _ _ _ f1 f2 f3 hb hc
  | schedule_tasks k w =>
    obtain ⟨r, h1, h2, h3, h4⟩ := schedule_tasks_ok s k w hb hc
    exact ⟨r, h1, h2, h3, fun _ => h4 trivial⟩

theorem run_ok (ops : List Op) : ∀ s : State, bounded s → conserved s →
    ∃ s1, run s ops = some s1 ∧ bounded s1 ∧ conserved s1 ∧
      (admitted_nonneg s ops → avail_nonneg s → usage_nonneg s →
        avail_nonneg s1 ∧ usage_nonneg s1) := by
  induction ops with
  | nil => intro s hb hc; exact ⟨s, rfl, hb, hc, fun _ h1 h2 => ⟨h1, h2⟩⟩
  | cons op ops ih =>
    intro s hb hc
    obtain ⟨r, hr, hb1, hc1, hn1⟩ := step_ok s op hb hc
    obtain ⟨s2, hs2, hb2, hc2, hn2⟩ := ih r.1 hb1 hc1
    refine ⟨s2, ?_, hb2, hc2, ?_⟩
    · simp only [run, hr, Option.bind]
      exact hs2
    · intro hf ha hu
      obtain ⟨ha1, hu1⟩ := hn1 hf.1 ha hu
      have hf2 := hf.2
      simp only [hr] at hf2
      exact hn2 hf2 ha1 hu1

theorem admitted_of_requests (ops : List Op) :
    ∀ s : State, requests_nonneg ops → admitted_nonneg s ops := by
  induction ops with
  | nil => intro _ _; trivial
  | cons op ops ih =>
    intro s h
    cases op with
    | create_process task_name ram hdd cpu bg now r1 r2 =>
      refine ⟨fun _ => h.1, ?_⟩
      cases hs : step s (Op.create_process task_name ram hdd cpu bg now r1 r2) with
      | none => trivial
      | some r => exact ih r.1 h.2
    | close_task i k w =>
      refine ⟨trivial, ?_⟩
      cases hs : step s (Op.close_task i k w) with
      | none => trivial
      | some r => exact ih r.1 h
    | minimize_task i =>
      refine ⟨trivial, ?_⟩
      cases hs : step s (Op.minimize_task i) with
      | none => trivial
      | some r => exact ih r.1 h
    | restore_task i =>
      refine ⟨trivial, ?_⟩
      cases hs : step s (Op.restore_task i) with
      | none => trivial
      | some r => exact ih r.1 h
    | set_scheduling_algorithm c =>
      refine ⟨trivial, ?_⟩
      cases hs : step s (Op.set_scheduling_algorithm c) with
      | none => trivial
      | some r => exact ih r.1 h
    | schedule_tasks k w =>
      refine ⟨trivial, ?_⟩
      cases hs : step s (Op.schedule_tasks k w) with
      | none => trivial
      | some r => exact ih r.1 h

theorem init_bounded (tr th tc : Int) : bounded (init tr th tc) := by
  unfold bounded init MAX_TASKS
  simp

theorem init_conserved (tr th tc : Int) : conserved (init tr th tc) := by
  simp [conserved, init, usage_sum]

theorem usage_sum_nonneg (f : Task → Int) (a : TaskArray) (n : Nat)
    (h : ∀ j, j < n → 0 ≤ f (a j)) : 0 ≤ usage_sum f a n := by
  induction n with
  | zero => simp [usage_sum]
  | succ n ih =>
    rw [usage_sum_succ]
    have := ih (fun j hj => h j (by omega))
    have := h n (by omega)
    omega

theorem in_range_of (s : State) (hc : conserved s) (ha : avail_nonneg s)
    (hu : usage_nonneg s) : in_range s := by
  obtain ⟨c1, c2, c3⟩ := hc
  obtain ⟨a1, a2, a3⟩ := ha
  have u1 := usage_sum_nonneg Task.ram_usage s.tasks s.task_count.toNat
    (fun j hj => (hu j hj).1)
  have u2 := usage_sum_nonneg Task.hdd_usage s.tasks s.task_count.toNat
    (fun j hj => (hu j hj).2.1)
  have u3 := usage_sum_nonneg Task.cpu_usage s.tasks s.task_count.toNat
    (fun j hj => (hu j hj).2.2)
  exact ⟨⟨a1, by omega⟩, ⟨a2, by omega⟩, ⟨a3, by omega⟩⟩

/-! ## Lemmas: the queue as a list, Round-Robin rounds, the priority sort -/

theorem registry_length (a : TaskArray) (n : Nat) : (registry a n).length = n := by
  simp [registry]

theorem registry_succ (a : TaskArray) (n : Nat) :
    registry a (n + 1) = registry a n ++ [a n] := by
  simp [registry, List.range_succ]

theorem registry_succ_cons (a : TaskArray) (n : Nat) :
    registry a (n + 1) = a 0 :: registry (fun j => a (j + 1)) n := by
  simp [registry, List.range_succ_eq_map, List.map_map, Function.comp_def]

theorem registry_rr_evict (a : TaskArray) (m : Nat) :
    registry (rr_array a (m + 1)) m = registry (fun j => a (j + 1)) m := by
  apply registry_congr
  intro j hj
  have : j + 1 < m + 1 := by omega
  simp only [rr_array, this, if_true]

theorem registry_rr_keep (a : TaskArray) (m : Nat) :
    registry (rr_array a (m + 1)) (m + 1) = registry (fun j => a (j + 1)) m ++ [aged (a 0)] := by
  rw [registry_succ, registry_rr_evict]
  congr 1
  simp only [rr_array, lt_self_iff_false, if_false, if_true, aged]

theorem schedule_tasks_rr_queue (s : State) (kill_ret wait_ret : Int)
    (hs : s.current_scheduler = SchedulingAlgorithm.ROUND_ROBIN)
    (h0 : 0 ≤ s.task_count) (h50 : s.task_count ≤ MAX_TASKS) :
    ∃ s1 tr, schedule_tasks s kill_ret wait_ret = some (s1, tr) ∧
      s1.queue = rr_tick s.queue ∧
      s1.current_scheduler = SchedulingAlgorithm.ROUND_ROBIN ∧
      0 ≤ s1.task_count ∧ s1.task_count ≤ MAX_TASKS := by
  by_cases hz : s.task_count = 0
  · refine ⟨s, [], schedule_tasks_noop s _ _ (Or.inl hz), ?_, hs, h0, h50⟩
    simp [State.queue, hz, registry, rr_tick]
  · rw [schedule_tasks_rr s _ _ hs (by omega) h50]
    obtain ⟨m, hm⟩ : ∃ m : Nat, s.task_count = (m : Int) + 1 :=
      ⟨(s.task_count - 1).toNat, by omega⟩
    have e1 : (s.task_count - 1).toNat = m := by omega
    have e2 : s.task_count.toNat = m + 1 := by omega
    have hq : s.queue = s.tasks 0 :: registry (fun j => s.tasks (j + 1)) m := by
      rw [State.queue, e2, registry_succ_cons]
    by_cases hrem : (s.tasks 0).remaining_time - TIME_QUANTUM ≤ 0
    · rw [if_pos hrem]
      refine ⟨_, _, rfl, ?_, hs, ?_, ?_⟩
      · show registry (rr_array s.tasks s.task_count.toNat) (s.task_count - 1).toNat = _
        rw [hq, e1, e2, registry_rr_evict]
        simp only [rr_tick, hrem, if_true]
      · show 0 ≤ s.task_count - 1
        omega
      · show s.task_count - 1 ≤ MAX_TASKS
        omega
    · rw [if_neg hrem]
      refine ⟨_, _, rfl, ?_, hs, h0, h50⟩
      show registry (rr_array s.tasks s.task_count.toNat) s.task_count.toNat = _
      rw [hq, e2, registry_rr_keep]
      simp only [rr_tick, hrem, if_false]

theorem system_res_add_sub (r : SystemResources) (ram hdd cpu : Int) :
    ({ r with
       available_ram := r.available_ram - ram + ram,
       available_hdd := r.available_hdd - hdd + hdd,
       available_cores := r.available_cores - cpu + cpu } : SystemResources) = r := by
  cases r
  simp

theorem create_process_registered (s : State) (task_name : String) (ram hdd cpu : Int)
    (bg : Char) (now r1 r2 : Int)
    (hres : check_resources s.system_res ram hdd cpu = true)
    (hbg : bg = 'y' ∨ bg = 'Y')
    (h0 : 0 ≤ s.task_count) (h50 : s.task_count < MAX_TASKS) :
    ∃ s1 tr, create_process s task_name ram hdd cpu bg now r1 r2 = some (s1, tr) ∧
      s1.tasks = Function.update s.tasks s.task_count.toNat
        { pid := -1, name := task_name, ram_usage := ram, hdd_usage := hdd,
          cpu_usage := cpu, is_running := 1, is_minimized := 0,
          start_time := now, priority := Int.tmod r1 5 + 1,
          remaining_time := Int.tmod r2 10 + 1 } ∧
      s1.system_res =
        { s.system_res with
          available_ram := s.system_res.available_ram - ram,
          available_hdd := s.system_res.available_hdd - hdd,
          available_cores := s.system_res.available_cores - cpu } ∧
      s1.task_count = s.task_count + 1 :=
  ⟨_, _, create_process_background s task_name ram hdd cpu bg now r1 r2 hres hbg h0 h50,
    rfl, rfl, rfl⟩

theorem survivors_cons (k : Nat) (t : Task) (l : List Task) :
    survivors k (t :: l)
      = if 2 * (k : Int) < t.remaining_time then
          { t with remaining_time := t.remaining_time - 2 * (k : Int) } :: survivors k l
        else survivors k l := by
  unfold survivors
  by_cases h : 2 * (k : Int) < t.remaining_time
  · rw [if_pos h, List.filter_cons_of_pos (by simpa using h), List.map_cons]
  · rw [if_neg h, List.filter_cons_of_neg (by simpa using h)]

theorem rr_tick_iterate_append (l1 : List Task) : ∀ l2 : List Task,
    rr_tick^[l1.length] (l1 ++ l2) = l2 ++ survivors 1 l1 := by
  induction l1 with
  | nil => intro l2; simp [survivors]
  | cons t l1 ih =>
    intro l2
    rw [List.length_cons, Function.iterate_succ_apply, List.cons_append, rr_tick,
      survivors_cons]
    by_cases h : t.remaining_time - TIME_QUANTUM ≤ 0
    · have hd : ¬ (2 * ((1 : Nat) : Int) < t.remaining_time) := by
        simp only [TIME_QUANTUM] at h; push_cast; omega
      rw [if_pos h, if_neg hd, ih l2]
    · have hd : 2 * ((1 : Nat) : Int) < t.remaining_time := by
        simp only [TIME_QUANTUM] at h; push_cast; omega
      rw [if_neg h, if_pos hd, List.append_assoc, ih (l2 ++ [aged t]), List.append_assoc]
      rfl

theorem rr_tick_round (l : List Task) : rr_tick^[l.length] l = survivors 1 l := by
  have := rr_tick_iterate_append l []
  simpa using this

theorem survivors_add (j k : Nat) (l : List Task) :
    survivors j (survivors k l) = survivors (k + j) l := by
  induction l with
  | nil => rfl
  | cons t l ih =>
    rw [survivors_cons k, survivors_cons (k + j)]
    by_cases h1 : 2 * (k : Int) < t.remaining_time
    · rw [if_pos h1, survivors_cons j, ih]
      by_cases h2 : 2 * ((k + j : Nat) : Int) < t.remaining_time
      · have h3 : 2 * (j : Int) < t.remaining_time - 2 * (k : Int) := by
          push_cast at h2; omega
        rw [if_pos h2, if_pos h3]
        congr 2
        push_cast
        ring
      · have h3 : ¬ (2 * (j : Int) < t.remaining_time - 2 * (k : Int)) := by
          push_cast at h2; omega
        rw [if_neg h2, if_neg h3]
    · have h2 : ¬ (2 * ((k + j : Nat) : Int) < t.remaining_time) := by
        push_cast; omega
      rw [if_neg h1, if_neg h2, ih]

theorem queue_length (s : State) : s.queue.length = s.task_count.toNat := by
  simp [State.queue, registry_length]

theorem run_ticks (kill_ret wait_ret : Int) (m : Nat) : ∀ s : State,
    s.current_scheduler = SchedulingAlgorithm.ROUND_ROBIN →
    0 ≤ s.task_count → s.task_count ≤ MAX_TASKS →
    ∃ s1, run s (List.replicate m (Op.schedule_tasks kill_ret wait_ret)) = some s1 ∧
      s1.queue = rr_tick^[m] s.queue ∧
      s1.current_scheduler = SchedulingAlgorithm.ROUND_ROBIN ∧
      0 ≤ s1.task_count ∧ s1.task_count ≤ MAX_TASKS := by
  induction m with
  | zero => intro s hs h0 h50; exact ⟨s, rfl, rfl, hs, h0, h50⟩
  | succ m ih =>
    intro s hs h0 h50
    obtain ⟨s1, tr, h1, hq, hs1, hb0, hb50⟩ :=
      schedule_tasks_rr_queue s kill_ret wait_ret hs h0 h50
    obtain ⟨s2, h2, hq2, hs2, hc0, hc50⟩ := ih s1 hs1 hb0 hb50
    refine ⟨s2, ?_, ?_, hs2, hc0, hc50⟩
    · simp only [List.replicate_succ, run, step, h1, Option.bind]
      exact h2
    · rw [hq2, hq, Function.iterate_succ_apply]

theorem rr_rounds_survivors (kill_ret wait_ret : Int) (k : Nat) : ∀ s : State,
    s.current_scheduler = SchedulingAlgorithm.ROUND_ROBIN →
    0 ≤ s.task_count → s.task_count ≤ MAX_TASKS →
    ∃ s1, rr_rounds kill_ret wait_ret (k + 1) s = some s1 ∧
      s1.queue = survivors (k + 1) s.queue ∧
      s1.current_scheduler = SchedulingAlgorithm.ROUND_ROBIN ∧
      0 ≤ s1.task_count ∧ s1.task_count ≤ MAX_TASKS := by
  induction k with
  | zero =>
    intro s hs h0 h50
    obtain ⟨s1, h1, hq, hs1, hb0, hb50⟩ :=
      run_ticks kill_ret wait_ret s.task_count.toNat s hs h0 h50
    refine ⟨s1, ?_, ?_, hs1, hb0, hb50⟩
    · simp only [rr_rounds, rr_round, h1, Option.bind]
    · rw [hq, ← queue_length, rr_tick_round]
  | succ k ih =>
    intro s hs h0 h50
    obtain ⟨s1, h1, hq, hs1, hb0, hb50⟩ :=
      run_ticks kill_ret wait_ret s.task_count.toNat s hs h0 h50
    obtain ⟨s2, h2, hq2, hs2, hc0, hc50⟩ := ih s1 hs1 hb0 hb50
    refine ⟨s2, ?_, ?_, hs2, hc0, hc50⟩
    · rw [rr_rounds]
      simp only [rr_round, h1, Option.bind]
      exact h2
    · rw [hq2, hq, ← queue_length, rr_tick_round, survivors_add, Nat.add_comm 1 (k + 1)]

theorem swap_adjacent_left (a : TaskArray) (j : Nat) : swap_adjacent a j j = a (j + 1) := by
  unfold swap_adjacent
  rw [Function.update_noteq (by omega), Function.update_same]

theorem swap_adjacent_right (a : TaskArray) (j : Nat) :
    swap_adjacent a j (j + 1) = a j := by
  unfold swap_adjacent
  rw [Function.update_same]

theorem swap_adjacent_other (a : TaskArray) (j i : Nat) (h1 : i ≠ j) (h2 : i ≠ j + 1) :
    swap_adjacent a j i = a i := by
  unfold swap_adjacent
  rw [Function.update_noteq h2, Function.update_noteq h1]

theorem priority_inner_rel (R : TaskArray → TaskArray → Prop)
    (hrefl : ∀ a, R a a) (htrans : ∀ a b c, R c b → R b a → R c a)
    (m : Nat) (hm : (m : Int) ≤ MAX_TASKS)
    (hswap : ∀ a j, j + 1 < m → (a j).priority < (a (j + 1)).priority →
      R (swap_adjacent a j) a)
    (n : Nat) :
    ∀ (j : Nat) (a : TaskArray), j + n < m →
      ∃ b, priority_inner n (j : Int) a = some b ∧ R b a := by
  induction n with
  | zero => intro j a _; exact ⟨a, rfl, hrefl a⟩
  | succ n ih =>
    intro j a h
    have h1 : ((j + 1 : Nat) : Int) < MAX_TASKS := by push_cast; omega
    have h2 : (j : Int) < MAX_TASKS := by omega
    have e : (j : Int) + 1 = ((j + 1 : Nat) : Int) := by push_cast; rfl
    rw [priority_inner, e, rd_nat a j h2, rd_nat a (j + 1) h1]
    simp only [Option.bind]
    split
    · rename_i hlt
      rw [wr_nat _ j _ h2]
      simp only [Option.bind]
      rw [wr_nat _ (j + 1) _ h1]
      simp only [Option.bind]
      obtain ⟨b, hb, hR⟩ := ih (j + 1) (swap_adjacent a j) (by omega)
      exact ⟨b, hb, htrans _ _ _ hR (hswap a j (by omega) hlt)⟩
    · exact ih (j + 1) a (by omega)

theorem priority_outer_rel (R : TaskArray → TaskArray → Prop)
    (hrefl : ∀ a, R a a) (htrans : ∀ a b c, R c b → R b a → R c a)
    (m : Nat) (hm : (m : Int) ≤ MAX_TASKS)
    (hswap : ∀ a j, j + 1 < m → (a j).priority < (a (j + 1)).priority →
      R (swap_adjacent a j) a)
    (n : Nat) :
    ∀ (i : Nat) (a : TaskArray), i + n + 1 ≤ m ∨ n = 0 →
      ∃ b, priority_outer (m : Int) n (i : Int) a = some b ∧ R b a := by
  induction n with
  | zero => intro i a _; exact ⟨a, rfl, hrefl a⟩
  | succ n ih =>
    intro i a h
    have hi : i + (n + 1) + 1 ≤ m := by omega
    have e : (i : Int) + 1 = ((i + 1 : Nat) : Int) := by push_cast; rfl
    have hc : ((m : Int) - i - 1).toNat = m - i - 1 := by omega
    rw [priority_outer, hc]
    obtain ⟨b, hb, hR⟩ := priority_inner_rel R hrefl htrans m hm hswap (m - i - 1) 0 a
      (by omega)
    have hb0 : priority_inner (m - i - 1) 0 a = some b := by simpa using hb
    rw [hb0]
    simp only [Option.bind]
    rw [e]
    obtain ⟨c, hc1, hR1⟩ := ih (i + 1) b (by omega)
    exact ⟨c, hc1, htrans _ _ _ hR1 hR⟩

theorem priority_inner_min (n : Nat) :
    ∀ (j : Nat) (a b : TaskArray), (j : Int) + n < MAX_TASKS →
      (∀ i, i ≤ j → (a j).priority ≤ (a i).priority) →
      priority_inner n (j : Int) a = some b →
      ∀ i, i ≤ j + n → (b (j + n)).priority ≤ (b i).priority := by
  induction n with
  | zero =>
    intro j a b _ hpre hb
    simp only [priority_inner, Option.some.injEq] at hb
    subst hb
    exact hpre
  | succ n ih =>
    intro j a b h hpre hb
    have h1 : ((j + 1 : Nat) : Int) < MAX_TASKS := by push_cast; omega
    have h2 : (j : Int) < MAX_TASKS := by omega
    have e : (j : Int) + 1 = ((j + 1 : Nat) : Int) := by push_cast; rfl
    have hidx : j + 1 + n = j + (n + 1) := by omega
    rw [priority_inner, e, rd_nat a j h2, rd_nat a (j + 1) h1] at hb
    simp only [Option.bind] at hb
    split at hb
    · rename_i hlt
      rw [wr_nat _ j _ h2] at hb
      simp only [Option.bind] at hb
      rw [wr_nat _ (j + 1) _ h1] at hb
      simp only [Option.bind] at hb
      have := ih (j + 1) (swap_adjacent a j) b (by push_cast; omega) (by
        intro i hi
        rw [swap_adjacent_right]
        by_cases h3 : i = j + 1
        · subst h3; rw [swap_adjacent_right]
        · by_cases h4 : i = j
          · subst h4
            rw [swap_adjacent_left]
            omega
          · rw [swap_adjacent_other a j i h4 h3]
            exact hpre i (by omega)) hb
      rw [hidx] at this
      exact this
    · rename_i hlt
      have := ih (j + 1) a b (by push_cast; omega) (by
        intro i hi
        by_cases h3 : i = j + 1
        · subst h3; exact le_refl _
        · have := hpre i (by omega)
          omega) hb
      rw [hidx] at this
      exact this

theorem priority_pass_sorted (n i : Nat) (hn : (n : Int) ≤ MAX_TASKS) (hi : i + 1 < n)
    (a b : TaskArray) (hs : sorted_from a (n - i) n) (ha : above a (n - i) n)
    (hb : priority_inner (n - i - 1) 0 a = some b) :
    sorted_from b (n - (i + 1)) n ∧ above b (n - (i + 1)) n := by
  obtain ⟨c, hc⟩ : ∃ c, n - i - 1 = c := ⟨_, rfl⟩
  have e1 : n - i = c + 1 := by omega
  have e2 : n - (i + 1) = c := by omega
  rw [e1] at hs ha
  rw [hc] at hb
  rw [e2]
  obtain ⟨b1, hb1, hp, hk⟩ := priority_inner_spec (c + 1) (by omega) c 0 a (by omega)
  have hb1' : priority_inner c 0 a = some b1 := by simpa using hb1
  rw [hb] at hb1'
  obtain rfl : b = b1 := Option.some.inj hb1'
  have hmin := priority_inner_min c 0 a b (by simp; omega)
    (by intro u hu; have : u = 0 := by omega
        subst this; exact le_refl _)
    (by simpa using hb)
  simp only [Nat.zero_add] at hmin
  have hmem : ∀ u, u ≤ c → ∃ u', u' ≤ c ∧ a u' = b u := by
    intro u hu
    have h1 : b u ∈ registry b (c + 1) := (mem_registry b _ _).mpr ⟨u, by omega, rfl⟩
    obtain ⟨u', hu', he⟩ := (mem_registry a _ _).mp (hp.mem_iff.mp h1)
    exact ⟨u', by omega, he⟩
  constructor
  · intro k hk1 hk2
    by_cases hkc : k = c
    · subst hkc
      obtain ⟨u', hu', he⟩ := hmem k (le_refl _)
      rw [hk (k + 1) (by omega), ← he]
      exact ha u' (k + 1) (by omega) (by omega) hk2
    · rw [hk (k + 1) (by omega), hk k (by omega)]
      exact hs k (by omega) hk2
  · intro u v hu hv hvn
    by_cases hvc : v = c
    · subst hvc
      exact hmin u (by omega)
    · obtain ⟨u', hu', he⟩ := hmem u (by omega)
      rw [hk v (by omega), ← he]
      exact ha u' v (by omega) (by omega) hvn

theorem priority_outer_sorted (n : Nat) (hn : (n : Int) ≤ MAX_TASKS) (cnt : Nat) :
    ∀ (i : Nat) (a b : TaskArray), i + cnt + 1 ≤ n ∨ cnt = 0 →
      sorted_from a (n - i) n → above a (n - i) n →
      priority_outer (n : Int) cnt (i : Int) a = some b →
      sorted_from b (n - (i + cnt)) n ∧ above b (n - (i + cnt)) n := by
  induction cnt with
  | zero =>
    intro i a b _ hs ha hb
    simp only [priority_outer, Option.some.injEq] at hb
    subst hb
    exact ⟨hs, ha⟩
  | succ cnt ih =>
    intro i a b h hs ha hb
    have hi : i + (cnt + 1) + 1 ≤ n := by omega
    have e : (i : Int) + 1 = ((i + 1 : Nat) : Int) := by push_cast; rfl
    have hc : ((n : Int) - i - 1).toNat = n - i - 1 := by omega
    rw [priority_outer, hc] at hb
    cases hb1 : priority_inner (n - i - 1) 0 a with
    | none => rw [hb1] at hb; simp [Option.bind] at hb
    | some b1 =>
      rw [hb1] at hb
      simp only [Option.bind] at hb
      rw [e] at hb
      obtain ⟨hs1, ha1⟩ := priority_pass_sorted n i hn (by omega) a b1 hs ha hb1
      have := ih (i + 1) b1 b (by omega) hs1 ha1 hb
      have hidx : i + 1 + cnt = i + (cnt + 1) := by omega
      rw [hidx] at this
      exact this

theorem priority_outer_sorted_all (n : Nat) (hn : (n : Int) ≤ MAX_TASKS) (a b : TaskArray)
    (hb : priority_outer (n : Int) (n - 1) 0 a = some b) :
    ∀ k, k + 1 < n → (b (k + 1)).priority ≤ (b k).priority := by
  intro k hk
  have h := priority_outer_sorted n hn (n - 1) 0 a b (by omega)
    (by intro k h1 h2; omega) (by intro u v _ h1 h2; omega) (by simpa using hb)
  have e : n - (0 + (n - 1)) = 1 := by omega
  rw [e] at h
  by_cases hk0 : k = 0
  · subst hk0
    exact h.2 0 1 (by omega) (by omega) (by omega)
  · exact h.1 k (by omega) hk

theorem with_priority_nil (q : Int) : with_priority q [] = [] := rfl

theorem with_priority_cons (q : Int) (t : Task) (l : List Task) :
    with_priority q (t :: l)
      = if t.priority = q then t :: with_priority q l else with_priority q l := by
  unfold with_priority
  by_cases h : t.priority = q
  · rw [if_pos h, List.filter_cons_of_pos (by simpa using h)]
  · rw [if_neg h, List.filter_cons_of_neg (by simpa using h)]

theorem with_priority_append (q : Int) (l1 l2 : List Task) :
    with_priority q (l1 ++ l2) = with_priority q l1 ++ with_priority q l2 := by
  simp [with_priority]

theorem mem_stable_insert (t x : Task) (l : List Task) :
    x ∈ stable_insert t l ↔ x = t ∨ x ∈ l := by
  induction l with
  | nil => simp [stable_insert]
  | cons y ys ih =>
    unfold stable_insert
    split
    · simp
    · simp only [List.mem_cons, ih]
      tauto

theorem stable_insert_sorted (t : Task) (l : List Task) (h : sorted_desc l) :
    sorted_desc (stable_insert t l) := by
  induction l with
  | nil => simp [stable_insert, sorted_desc]
  | cons y ys ih =>
    unfold sorted_desc at h ih ⊢
    rw [List.pairwise_cons] at h
    unfold stable_insert
    split
    · rename_i hle
      rw [List.pairwise_cons, List.pairwise_cons]
      refine ⟨?_, h.1, h.2⟩
      intro z hz
      rcases List.mem_cons.mp hz with rfl | hz
      · exact hle
      · exact le_trans (h.1 z hz) hle
    · rename_i hlt
      rw [List.pairwise_cons]
      refine ⟨?_, ih h.2⟩
      intro z hz
      rcases (mem_stable_insert t z ys).mp hz with rfl | hz
      · omega
      · exact h.1 z hz

theorem sortDescendingByPriority_sorted (l : List Task) :
    sorted_desc (sortDescendingByPriority l) := by
  induction l with
  | nil => simp [sortDescendingByPriority, sorted_desc]
  | cons t l ih => exact stable_insert_sorted t _ ih

theorem stable_insert_with_priority (q : Int) (t : Task) (l : List Task) :
    with_priority q (stable_insert t l) = with_priority q (t :: l) := by
  induction l with
  | nil => rfl
  | cons y ys ih =>
    unfold stable_insert
    split
    · rfl
    · rename_i hlt
      rw [with_priority_cons q y (stable_insert t ys), ih]
      simp only [with_priority_cons]
      by_cases h1 : y.priority = q
      · have h2 : ¬ t.priority = q := by omega
        simp only [h1, h2, if_true, if_false]
      · simp only [h1, if_false]

theorem sortDescendingByPriority_stable (q : Int) (l : List Task) :
    with_priority q (sortDescendingByPriority l) = with_priority q l := by
  induction l with
  | nil => rfl
  | cons t l ih =>
    rw [sortDescendingByPriority, stable_insert_with_priority, with_priority_cons,
      with_priority_cons, ih]

theorem mem_of_with_priority (x : Task) (l : List Task)
    (h : x ∈ with_priority x.priority l) : x ∈ l := by
  unfold with_priority at h
  exact (List.mem_filter.mp h).1

theorem sorted_stable_unique (l1 : List Task) : ∀ l2 : List Task,
    sorted_desc l1 → sorted_desc l2 →
    (∀ q, with_priority q l1 = with_priority q l2) → l1 = l2 := by
  induction l1 with
  | nil =>
    intro l2 _ _ hf
    cases l2 with
    | nil => rfl
    | cons y ys =>
      have := hf y.priority
      rw [with_priority_cons, if_pos rfl] at this
      exact absurd this (by simp [with_priority])
  | cons x xs ih =>
    intro l2 h1 h2 hf
    cases l2 with
    | nil =>
      have := hf x.priority
      rw [with_priority_cons, if_pos rfl] at this
      exact absurd this (by simp [with_priority])
    | cons y ys =>
      unfold sorted_desc at h1 h2
      rw [List.pairwise_cons] at h1 h2
      have hx : x ∈ y :: ys := by
        apply mem_of_with_priority
        rw [← hf x.priority, with_priority_cons, if_pos rfl]
        exact List.mem_cons_self _ _
      have hy : y ∈ x :: xs := by
        apply mem_of_with_priority
        rw [hf y.priority, with_priority_cons, if_pos rfl]
        exact List.mem_cons_self _ _
      have hxy : x.priority ≤ y.priority := by
        rcases List.mem_cons.mp hx with rfl | hm
        · exact le_refl _
        · exact h2.1 x hm
      have hyx : y.priority ≤ x.priority := by
        rcases List.mem_cons.mp hy with rfl | hm
        · exact le_refl _
        · exact h1.1 y hm
      have hp : y.priority = x.priority := by omega
      have hq := hf x.priority
      rw [with_priority_cons, with_priority_cons, if_pos rfl, if_pos hp] at hq
      have hhead : x = y := (List.cons.inj hq).1
      subst hhead
      congr 1
      apply ih ys h1.2 h2.2
      intro q
      have := hf q
      simp only [with_priority_cons] at this
      by_cases hqq : x.priority = q
      · simp only [hqq, if_true] at this
        exact (List.cons.inj this).2
      · simp only [hqq, if_false] at this
        exact this

theorem registry_swap_with_priority (q : Int) (a : TaskArray) (j : Nat)
    (hlt : (a j).priority < (a (j + 1)).priority) :
    ∀ m, j + 2 ≤ m →
      with_priority q (registry (swap_adjacent a j) m) = with_priority q (registry a m) := by
  intro m hm
  induction m, hm using Nat.le_induction with
  | base =>
    have e : registry (swap_adjacent a j) j = registry a j :=
      registry_congr _ _ _ (fun i hi => swap_adjacent_other a j i (by omega) (by omega))
    rw [registry_succ, registry_succ, registry_succ, registry_succ, e,
      swap_adjacent_left, swap_adjacent_right]
    simp only [with_priority_append, List.append_assoc]
    congr 1
    simp only [List.singleton_append, with_priority_cons, with_priority_nil]
    by_cases h1 : (a j).priority = q
    · have h2 : ¬ (a (j + 1)).priority = q := by omega
      simp [h1, h2]
    · simp [h1]
  | succ m hm ih =>
    rw [registry_succ, registry_succ (a := a), with_priority_append, with_priority_append, ih,
      swap_adjacent_other a j m (by omega) (by omega)]

theorem schedule_tasks_priority_full (s : State) (kill_ret wait_ret : Int)
    (hs : s.current_scheduler = SchedulingAlgorithm.PRIORITY)
    (h0 : 0 ≤ s.task_count) (h50 : s.task_count ≤ MAX_TASKS) :
    ∃ b, schedule_tasks s kill_ret wait_ret = some ({ s with tasks := b }, []) ∧
      List.Perm (registry b s.task_count.toNat) (registry s.tasks s.task_count.toNat) ∧
      (∀ k, s.task_count.toNat ≤ k → b k = s.tasks k) ∧
      (∀ k, k + 1 < s.task_count.toNat → (b (k + 1)).priority ≤ (b k).priority) ∧
      (∀ q, with_priority q (registry b s.task_count.toNat)
        = with_priority q (registry s.tasks s.task_count.toNat)) := by
  obtain ⟨a, res, tc, cs⟩ := s
  simp only at hs h0 h50
  subst hs
  obtain ⟨n, rfl⟩ : ∃ n : Nat, tc = (n : Int) := ⟨tc.toNat, by omega⟩
  simp only [Int.toNat_ofNat]
  by_cases hz : n = 0
  · subst hz
    refine ⟨a, ?_, List.Perm.refl _, fun _ _ => rfl, fun k hk => by omega, fun _ => rfl⟩
    simp [schedule_tasks]
  · have hne : ¬ ((n : Int) = 0) := by omega
    have hcnt : ((n : Int) - 1).toNat = n - 1 := by omega
    obtain ⟨b, hb, hp, hk⟩ := priority_outer_spec n h50 (n - 1) 0 a (by omega)
    simp only [Nat.cast_zero] at hb
    obtain ⟨b', hb', hR⟩ := priority_outer_rel
      (fun b a => ∀ q, with_priority q (registry b n) = with_priority q (registry a n))
      (fun _ _ => rfl) (fun _ _ _ h1 h2 q => (h1 q).trans (h2 q)) n h50
      (fun a j hj hlt q => registry_swap_with_priority q a j hlt n (by omega))
      (n - 1) 0 a (by omega)
    simp only [Nat.cast_zero] at hb'
    rw [hb] at hb'
    obtain rfl : b = b' := Option.some.inj hb'
    refine ⟨b, ?_, hp, hk, priority_outer_sorted_all n h50 a b hb, hR⟩
    simp only [schedule_tasks, hne, if_false, hcnt, hb, Option.bind]

theorem registry_sorted_desc (b : TaskArray) (n : Nat)
    (h : ∀ k, k + 1 < n → (b (k + 1)).priority ≤ (b k).priority) :
    sorted_desc (registry b n) := by
  have hmono : ∀ v u, u ≤ v → v < n → (b v).priority ≤ (b u).priority := by
    intro v
    induction v with
    | zero =>
      intro u hu _
      have : u = 0 := by omega
      subst this; exact le_refl _
    | succ v ih =>
      intro u hu hv
      by_cases huv : u = v + 1
      · subst huv; exact le_refl _
      · exact le_trans (h v hv) (ih u (by omega) (by omega))
  unfold sorted_desc registry
  rw [List.pairwise_map]
  refine (List.pairwise_lt_range n).imp_of_mem ?_
  intro u v _ hv huv
  exact hmono v u (by omega) (List.mem_range.mp hv)

/-! ## Lemmas: per-task invariants and the Round-Robin drain count -/

theorem create_process_cases (s : State) (task_name : String) (ram hdd cpu : Int)
    (bg : Char) (now r1 r2 : Int) (h0 : 0 ≤ s.task_count) (h50 : s.task_count ≤ MAX_TASKS) :
    (∃ tr, create_process s task_name ram hdd cpu bg now r1 r2 = some (s, tr)) ∨
    (s.task_count < MAX_TASKS ∧
      ∃ s1 tr, create_process s task_name ram hdd cpu bg now r1 r2 = some (s1, tr) ∧
        s1.tasks = Function.update s.tasks s.task_count.toNat
          { pid := -1, name := task_name, ram_usage := ram, hdd_usage := hdd,
            cpu_usage := cpu, is_running := 1, is_minimized := 0,
            start_time := now, priority := Int.tmod r1 5 + 1,
            remaining_time := Int.tmod r2 10 + 1 } ∧
        s1.task_count = s.task_count + 1) := by
  by_cases hres : check_resources s.system_res ram hdd cpu = true
  · by_cases hbg : bg = 'y' ∨ bg = 'Y'
    · by_cases hlt : s.task_count < MAX_TASKS
      · right
        obtain ⟨s1, tr, hc, ht, _, hn⟩ :=
          create_process_registered s task_name ram hdd cpu bg now r1 r2 hres hbg h0 hlt
        exact ⟨hlt, s1, tr, hc, ht, hn⟩
      · left
        exact create_process_full s task_name ram hdd cpu bg now r1 r2 hres (by omega)
    · left
      have hbg' : (decide (bg = 'y') || decide (bg = 'Y')) = false := by
        simp only [not_or] at hbg
        simp [hbg.1, hbg.2]
      exact ⟨[Event.foreground task_name], by simp [create_process, hres, hbg']⟩
  · left
    exact ⟨[Event.print_error "Not enough resources to start this task!"],
      by simp [create_process, hres]⟩

theorem step_all (P : Task → Prop)
    (hage : ∀ t : Task, P t →
      P { t with remaining_time := t.remaining_time - TIME_QUANTUM })
    (hflag : ∀ (t : Task) (v : Int), P t → P { t with is_minimized := v })
    (hnew : ∀ (task_name : String) (ram hdd cpu now p r : Int),
      P { pid := -1, name := task_name, ram_usage := ram, hdd_usage := hdd,
          cpu_usage := cpu, is_running := 1, is_minimized := 0,
          start_time := now, priority := p, remaining_time := r })
    (s : State) (op : Op) (r : State × List Event)
    (h0 : 0 ≤ s.task_count) (h50 : s.task_count ≤ MAX_TASKS) (hP : all_tasks P s)
    (hstep : step s op = some r) : all_tasks P r.1 := by
  have hsame : ∀ tr, some (s, tr) = some r → all_tasks P r.1 := by
    intro tr h
    cases h
    exact hP
  cases op with
  | create_process task_name ram hdd cpu bg now r1 r2 =>
    simp only [step] at hstep
    rcases create_process_cases s task_name ram hdd cpu bg now r1 r2 h0 h50 with
      ⟨tr, h⟩ | ⟨hlt, s1, tr, h, ht, hn⟩
    · rw [h] at hstep; exact hsame tr hstep
    · rw [h] at hstep
      cases hstep
      intro j hj
      have hj' : j < s.task_count.toNat + 1 := by
        have : j < s1.task_count.toNat := hj
        omega
      show P (s1.tasks j)
      rw [ht]
      by_cases hjn : j = s.task_count.toNat
      · subst hjn
        rw [Function.update_same]
        exact hnew _ _ _ _ _ _ _
      · rw [Function.update_noteq hjn]
        exact hP j (by omega)
  | close_task i k w =>
    simp only [step] at hstep
    by_cases hinv : i < 0 ∨ i ≥ s.task_count ∨
        (0 ≤ i ∧ i < MAX_TASKS ∧ (s.tasks i.toNat).is_running = 0)
    · rw [close_task_invalid s i k w hinv] at hstep; exact hsame _ hstep
    · have hi0 : 0 ≤ i := by omega
      have hi1 : i < s.task_count := by omega
      have hi2 : i < MAX_TASKS := by omega
      have hr : (s.tasks i.toNat).is_running ≠ 0 := by
        intro h; exact hinv (Or.inr (Or.inr ⟨hi0, hi2, h⟩))
      by_cases hf : k = -1 ∨ (k ≠ -1 ∧ w = -1)
      · obtain ⟨tr, htr⟩ := close_task_failure s i k w hi0 hi1 hi2 hr hf
        rw [htr] at hstep; exact hsame _ hstep
      · have hk : k ≠ -1 := fun h => hf (Or.inl h)
        have hw : w ≠ -1 := fun h => hf (Or.inr ⟨hk, h⟩)
        rw [close_task_success s i k w hi0 hi1 h50 hr hk hw] at hstep
        cases hstep
        intro j hj
        have hj' : j < (s.task_count - 1).toNat := hj
        show P (if i.toNat ≤ j ∧ j < (s.task_count - 1).toNat then s.tasks (j + 1)
          else s.tasks j)
        split
        · exact hP (j + 1) (by omega)
        · exact hP j (by omega)
  | minimize_task i =>
    simp only [step] at hstep
    by_cases hinv : i < 0 ∨ i ≥ s.task_count ∨
        (0 ≤ i ∧ i < MAX_TASKS ∧ (s.tasks i.toNat).is_running = 0)
    · rw [(flag_invalid s i hinv).1] at hstep; exact hsame _ hstep
    · have hi0 : 0 ≤ i := by omega
      have hi1 : i < s.task_count := by omega
      have hi2 : i < MAX_TASKS := by omega
      have hr : (s.tasks i.toNat).is_running ≠ 0 := by
        intro h; exact hinv (Or.inr (Or.inr ⟨hi0, hi2, h⟩))
      rw [(flag_valid s i hi0 hi1 hi2 hr).1] at hstep
      cases hstep
      intro j hj
      have hj' : j < s.task_count.toNat := hj
      show P (Function.update s.tasks i.toNat _ j)
      by_cases hji : j = i.toNat
      · subst hji
        rw [Function.update_same]
        exact hflag _ _ (hP _ hj')
      · rw [Function.update_noteq hji]
        exact hP j hj'
  | restore_task i =>
    simp only [step] at hstep
    by_cases hinv : i < 0 ∨ i ≥ s.task_count ∨
        (0 ≤ i ∧ i < MAX_TASKS ∧ (s.tasks i.toNat).is_running = 0)
    · rw [(flag_invalid s i hinv).2] at hstep; exact hsame _ hstep
    · have hi0 : 0 ≤ i := by omega
      have hi1 : i < s.task_count := by omega
      have hi2 : i < MAX_TASKS := by omega
      have hr : (s.tasks i.toNat).is_running ≠ 0 := by
        intro h; exact hinv (Or.inr (Or.inr ⟨hi0, hi2, h⟩))
      rw [(flag_valid s i hi0 hi1 hi2 hr).2] at hstep
      cases hstep
      intro j hj
      have hj' : j < s.task_count.toNat := hj
      show P (Function.update s.tasks i.toNat _ j)
      by_cases hji : j = i.toNat
      · subst hji
        rw [Function.update_same]
        exact hflag _ _ (hP _ hj')
      · rw [Function.update_noteq hji]
        exact hP j hj'
  | set_scheduling_algorithm choice =>
    simp only [step, Option.some.injEq] at hstep
    subst hstep
    obtain ⟨f1, _, f3⟩ := set_scheduling_algorithm_frame s choice
    intro j hj
    rw [f3] at hj
    rw [f1]
    exact hP j hj
  | schedule_tasks k w =>
    simp only [step] at hstep
    by_cases hz : s.task_count = 0
    · rw [schedule_tasks_noop s _ _ (Or.inl hz)] at hstep; exact hsame _ hstep
    · cases hs : s.current_scheduler with
      | FCFS =>
        rw [schedule_tasks_noop s _ _ (Or.inr hs)] at hstep; exact hsame _ hstep
      | ROUND_ROBIN =>
        rw [schedule_tasks_rr s _ _ hs (by omega) h50] at hstep
        have hrr : ∀ j, j < s.task_count.toNat →
            P (rr_array s.tasks s.task_count.toNat j) := by
          intro j hj
          unfold rr_array
          by_cases h1 : j + 1 < s.task_count.toNat
          · rw [if_pos h1]; exact hP (j + 1) h1
          · have h2 : j + 1 = s.task_count.toNat := by omega
            rw [if_neg h1, if_pos h2]
            exact hage _ (hP 0 (by omega))
        by_cases hrem : (s.tasks 0).remaining_time - TIME_QUANTUM ≤ 0
        · rw [if_pos hrem] at hstep
          cases hstep
          intro j hj
          have hj' : j < (s.task_count - 1).toNat := hj
          exact hrr j (by omega)
        · rw [if_neg hrem] at hstep
          cases hstep
          intro j hj
          exact hrr j hj
      | PRIORITY =>
        obtain ⟨b, hb, hp, _⟩ := schedule_tasks_priority s k w hs h0 h50
        rw [hb] at hstep
        cases hstep
        intro j hj
        have hj' : j < s.task_count.toNat := hj
        have hmem : b j ∈ registry s.tasks s.task_count.toNat :=
          hp.mem_iff.mp ((mem_registry b _ _).mpr ⟨j, hj', rfl⟩)
        obtain ⟨u, hu, huj⟩ := (mem_registry _ _ _).mp hmem
        show P (b j)
        rw [← huj]
        exact hP u hu

theorem run_all (P : Task → Prop)
    (hage : ∀ t : Task, P t →
      P { t with remaining_time := t.remaining_time - TIME_QUANTUM })
    (hflag : ∀ (t : Task) (v : Int), P t → P { t with is_minimized := v })
    (hnew : ∀ (task_name : String) (ram hdd cpu now p r : Int),
      P { pid := -1, name := task_name, ram_usage := ram, hdd_usage := hdd,
          cpu_usage := cpu, is_running := 1, is_minimized := 0,
          start_time := now, priority := p, remaining_time := r })
    (ops : List Op) : ∀ s : State, bounded s → conserved s → all_tasks P s →
      ∃ s1, run s ops = some s1 ∧ bounded s1 ∧ all_tasks P s1 := by
  induction ops with
  | nil => intro s hb _ hP; exact ⟨s, rfl, hb, hP⟩
  | cons op ops ih =>
    intro s hb hc hP
    obtain ⟨r, hr, hb1, hc1, _⟩ := step_ok s op hb hc
    have hP1 := step_all P hage hflag hnew s op r hb.1 hb.2 hP hr
    obtain ⟨s2, hs2, hb2, hP2⟩ := ih r.1 hb1 hc1 hP1
    refine ⟨s2, ?_, hb2, hP2⟩
    simp only [run, hr, Option.bind]
    exact hs2

theorem close_task_valid_kill (s : State) (i kill_ret wait_ret : Int)
    (h0 : 0 ≤ i) (h1 : i < s.task_count) (h50 : s.task_count ≤ MAX_TASKS)
    (hr : (s.tasks i.toNat).is_running ≠ 0) :
    ∃ s1 tr, close_task s i kill_ret wait_ret
      = some (s1, Event.kill (s.tasks i.toNat).pid :: tr) := by
  have hb : ¬ (i < 0 ∨ i ≥ s.task_count) := by omega
  have h2 : i < MAX_TASKS := by omega
  by_cases hk : kill_ret = -1
  · refine ⟨s, [Event.perror "Failed to terminate task"], ?_⟩
    unfold close_task
    rw [if_neg hb]
    simp only [rd, h0, h2, and_self, if_true, Option.bind, hr, if_false]
    rw [if_pos hk]
  · by_cases hw : wait_ret = -1
    · refine ⟨s, [Event.waitpid (s.tasks i.toNat).pid,
        Event.perror "Failed to wait for task"], ?_⟩
      unfold close_task
      rw [if_neg hb]
      simp only [rd, h0, h2, and_self, if_true, Option.bind, hr, if_false]
      rw [if_neg hk, if_pos hw]
    · exact ⟨_, _, close_task_success s i kill_ret wait_ret h0 h1 h50 hr hk hw⟩

theorem init_all_tasks (P : Task → Prop) (tr th tc : Int) : all_tasks P (init tr th tc) := by
  intro j hj
  simp [init] at hj

theorem ceil_half (r : Int) : ⌈(r : ℚ) / 2⌉ = (r + 1) / 2 := by
  rw [Int.ceil_eq_iff]
  have h1 : (r + 1) / 2 * 2 ≤ r + 1 := by omega
  have h2 : r < (r + 1) / 2 * 2 + 1 := by omega
  have h1' : (((r + 1) / 2 : Int) : ℚ) * 2 ≤ (r : ℚ) + 1 := by exact_mod_cast h1
  have h2' : (r : ℚ) < (((r + 1) / 2 : Int) : ℚ) * 2 + 1 := by exact_mod_cast h2
  have h3 : (r : ℚ) ≤ (((r + 1) / 2 : Int) : ℚ) * 2 := by
    have : r ≤ (r + 1) / 2 * 2 := by omega
    exact_mod_cast this
  constructor <;> linarith

theorem turns_pos (t : Task) : 1 ≤ turns t := by
  unfold turns; omega

theorem turns_evicted (t : Task) (h : t.remaining_time - TIME_QUANTUM ≤ 0) : turns t = 1 := by
  unfold turns
  simp only [TIME_QUANTUM] at h
  omega

theorem turns_aged (t : Task) (h : ¬ t.remaining_time - TIME_QUANTUM ≤ 0) :
    turns (aged t) + 1 = turns t := by
  unfold turns aged
  simp only [TIME_QUANTUM] at h ⊢
  omega

theorem drain_ticks_rr_tick (t : Task) (ts : List Task) :
    drain_ticks (rr_tick (t :: ts)) + 1 = drain_ticks (t :: ts) := by
  rw [rr_tick]
  by_cases h : t.remaining_time - TIME_QUANTUM ≤ 0
  · rw [if_pos h]
    simp only [drain_ticks, List.map_cons, List.sum_cons, turns_evicted t h]
    omega
  · rw [if_neg h]
    have := turns_aged t h
    simp only [drain_ticks, List.map_cons, List.sum_cons, List.map_append, List.sum_append,
      List.map_nil, List.sum_nil]
    omega

theorem drain_ticks_eq_zero (l : List Task) : drain_ticks l = 0 ↔ l = [] := by
  cases l with
  | nil => simp [drain_ticks]
  | cons t ts =>
    have := turns_pos t
    simp only [drain_ticks, List.map_cons, List.sum_cons]
    constructor
    · intro h; omega
    · intro h; exact absurd h (List.cons_ne_nil _ _)

theorem drain_ticks_iterate (m : Nat) : ∀ l : List Task, m ≤ drain_ticks l →
    drain_ticks (rr_tick^[m] l) + m = drain_ticks l := by
  induction m with
  | zero => intro l _; rfl
  | succ m ih =>
    intro l hm
    cases l with
    | nil => simp [drain_ticks] at hm
    | cons t ts =>
      have h1 := drain_ticks_rr_tick t ts
      rw [Function.iterate_succ_apply]
      have := ih (rr_tick (t :: ts)) (by omega)
      omega

theorem drain_ticks_le (l : List Task)
    (h : ∀ t ∈ l, 1 ≤ t.remaining_time ∧ t.remaining_time ≤ 10) :
    drain_ticks l ≤ 5 * l.length := by
  induction l with
  | nil => simp [drain_ticks]
  | cons t ts ih =>
    have ht := h t (List.mem_cons_self _ _)
    have := ih (fun x hx => h x (List.mem_cons_of_mem _ hx))
    have h5 : turns t ≤ 5 := by unfold turns; omega
    simp only [drain_ticks, List.map_cons, List.sum_cons, List.length_cons] at this ⊢
    omega

theorem queue_eq_nil (s : State) (h0 : 0 ≤ s.task_count) : s.queue = [] ↔ s.task_count = 0 := by
  rw [← List.length_eq_zero, queue_length]
  omega

/-- The resource check and the reservation are separate calls, each taking the
semaphore on its own: a request of (30, 5, 1) passes `check_resources` on the
pool of `two_tasks` (30, 44, 2 available), and two `manage_resources`
reservations of that size made after checks on that same pool leave
`available_ram = -30`.  The source never runs two admissions at once. -/
theorem two_checks_then_two_reservations :
    check_resources (two_tasks.system_res) 30 5 1 = true ∧
    (manage_resources (manage_resources two_tasks.system_res 30 5 1 1) 30 5 1 1).available_ram
      = -30 := by
  decide

/-! ## Claims -/

/-- C1 (resource conservation).  From the initial state (available = total,
empty registry) every sequence of `create_process`, `close_task`,
`minimize_task`, `restore_task`, `set_scheduling_algorithm` and `schedule_tasks`
calls, with any inputs, runs to a state in which
`available + sum of usage over tasks[0 .. task_count) = total` for RAM, for
disk and for cores. -/
theorem resource_conservation (total_ram total_hdd total_cores : Int) (ops : List Op) :
    ∃ s, run (init total_ram total_hdd total_cores) ops = some s ∧ conserved s := by
  obtain ⟨s, hs, _, hc, _⟩ :=
    run_ok ops (init total_ram total_hdd total_cores) (init_bounded _ _ _)
      (init_conserved _ _ _)
  exact ⟨s, hs, hc⟩

/-- C2 (range invariant).  When the three totals are non-negative and every
footprint that gets admitted is non-negative, every sequence of operations from
the initial state runs to a state in which each available counter lies in
`[0, total]` of its own kind. -/
theorem available_in_range (total_ram total_hdd total_cores : Int) (ops : List Op)
    (h1 : 0 ≤ total_ram) (h2 : 0 ≤ total_hdd) (h3 : 0 ≤ total_cores)
    (hf : admitted_nonneg (init total_ram total_hdd total_cores) ops) :
    ∃ s, run (init total_ram total_hdd total_cores) ops = some s ∧ in_range s := by
  obtain ⟨s, hs, _, hc, hn⟩ :=
    run_ok ops (init total_ram total_hdd total_cores) (init_bounded _ _ _)
      (init_conserved _ _ _)
  obtain ⟨ha, hu⟩ := hn hf ⟨h1, h2, h3⟩ (fun j hj => by simp [init] at hj)
  exact ⟨s, hs, in_range_of s hc ha hu⟩

theorem available_in_range_witness :
    ∃ s, run (init 100 50 4) sample_ops = some s ∧ in_range s :=
  available_in_range 100 50 4 sample_ops (by decide) (by decide) (by decide)
    (admitted_of_requests sample_ops (init 100 50 4)
      ⟨⟨by decide, by decide, by decide⟩, ⟨by decide, by decide, by decide⟩,
        ⟨by decide, by decide, by decide⟩, trivial⟩)

/-- C3 (admission denial).  When at least one available counter is smaller than
the requested amount, `create_process` reports the shortage and returns the
state it was given: no task is created and the pool, `task_count` and every
registry entry are unchanged. -/
theorem admission_denied (s : State) (task_name : String) (ram hdd cpu : Int)
    (bg : Char) (now r1 r2 : Int)
    (h : s.system_res.available_ram < ram ∨ s.system_res.available_hdd < hdd ∨
      s.system_res.available_cores < cpu) :
    create_process s task_name ram hdd cpu bg now r1 r2
      = some (s, [Event.print_error "Not enough resources to start this task!"]) :=
  create_process_denied s task_name ram hdd cpu bg now r1 r2 h

theorem admission_denied_witness :
    create_process two_tasks "Minesweeper" 60 5 1 'y' 0 7 13
      = some (two_tasks, [Event.print_error "Not enough resources to start this task!"]) :=
  admission_denied two_tasks "Minesweeper" 60 5 1 'y' 0 7 13 (Or.inl (by decide))

/-- C4 (admission success).  With `available >= requested` on all three
dimensions, `0 <= task_count < 50` and a background answer, `create_process`
lowers each available counter by exactly the requested amount, keeps the three
totals, raises `task_count` by one, stores at index old `task_count` a task with
the given name and footprint, `is_running = 1` and `is_minimized = 0`, and
leaves every earlier registry entry unchanged. -/
theorem admission_success (s : State) (task_name : String) (ram hdd cpu : Int)
    (bg : Char) (now r1 r2 : Int)
    (h1 : ram ≤ s.system_res.available_ram) (h2 : hdd ≤ s.system_res.available_hdd)
    (h3 : cpu ≤ s.system_res.available_cores)
    (h0 : 0 ≤ s.task_count) (h50 : s.task_count < MAX_TASKS)
    (hbg : bg = 'y' ∨ bg = 'Y') :
    ∃ s1 tr, create_process s task_name ram hdd cpu bg now r1 r2 = some (s1, tr) ∧
      s1.system_res.available_ram = s.system_res.available_ram - ram ∧
      s1.system_res.available_hdd = s.system_res.available_hdd - hdd ∧
      s1.system_res.available_cores = s.system_res.available_cores - cpu ∧
      s1.system_res.total_ram = s.system_res.total_ram ∧
      s1.system_res.total_hdd = s.system_res.total_hdd ∧
      s1.system_res.total_cores = s.system_res.total_cores ∧
      s1.task_count = s.task_count + 1 ∧
      (s1.tasks s.task_count.toNat).name = task_name ∧
      (s1.tasks s.task_count.toNat).ram_usage = ram ∧
      (s1.tasks s.task_count.toNat).hdd_usage = hdd ∧
      (s1.tasks s.task_count.toNat).cpu_usage = cpu ∧
      (s1.tasks s.task_count.toNat).is_running = 1 ∧
      (s1.tasks s.task_count.toNat).is_minimized = 0 ∧
      ∀ j, j < s.task_count.toNat → s1.tasks j = s.tasks j := by
  refine ⟨_, _, create_process_background s task_name ram hdd cpu bg now r1 r2
    (check_resources_true _ _ _ _ h1 h2 h3) hbg h0 h50, rfl, rfl, rfl, rfl, rfl, rfl, rfl,
    ?_, ?_, ?_, ?_, ?_, ?_, ?_⟩
  · simp only [Function.update_same]
  · simp only [Function.update_same]
  · simp only [Function.update_same]
  · simp only [Function.update_same]
  · simp only [Function.update_same]
  · simp only [Function.update_same]
  · intro j hj
    exact Function.update_noteq (by omega) _ _

theorem admission_success_witness :
    ∃ s1 tr, create_process two_tasks "Time" 10 1 1 'y' 0 7 13 = some (s1, tr) ∧
      s1.system_res.available_ram = two_tasks.system_res.available_ram - 10 ∧
      s1.system_res.available_hdd = two_tasks.system_res.available_hdd - 1 ∧
      s1.system_res.available_cores = two_tasks.system_res.available_cores - 1 ∧
      s1.system_res.total_ram = two_tasks.system_res.total_ram ∧
      s1.system_res.total_hdd = two_tasks.system_res.total_hdd ∧
      s1.system_res.total_cores = two_tasks.system_res.total_cores ∧
      s1.task_count = two_tasks.task_count + 1 ∧
      (s1.tasks two_tasks.task_count.toNat).name = "Time" ∧
      (s1.tasks two_tasks.task_count.toNat).ram_usage = 10 ∧
      (s1.tasks two_tasks.task_count.toNat).hdd_usage = 1 ∧
      (s1.tasks two_tasks.task_count.toNat).cpu_usage = 1 ∧
      (s1.tasks two_tasks.task_count.toNat).is_running = 1 ∧
      (s1.tasks two_tasks.task_count.toNat).is_minimized = 0 ∧
      ∀ j, j < two_tasks.task_count.toNat → s1.tasks j = two_tasks.tasks j :=
  admission_success two_tasks "Time" 10 1 1 'y' 0 7 13 (by decide) (by decide) (by decide)
    (by decide) (by decide) (Or.inl rfl)

/-- C5 (capacity failure).  With `task_count = 50` and a footprint that passes
the resource check, `create_process` returns the state it was given, whatever
the answer to the background prompt: no task is registered and the available
counters are exactly as before the call. -/
theorem capacity_failure_keeps_pool (s : State) (task_name : String) (ram hdd cpu : Int)
    (bg : Char) (now r1 r2 : Int)
    (hfull : s.task_count = MAX_TASKS)
    (h1 : ram ≤ s.system_res.available_ram) (h2 : hdd ≤ s.system_res.available_hdd)
    (h3 : cpu ≤ s.system_res.available_cores) :
    ∃ tr, create_process s task_name ram hdd cpu bg now r1 r2 = some (s, tr) :=
  create_process_full s task_name ram hdd cpu bg now r1 r2
    (check_resources_true _ _ _ _ h1 h2 h3) hfull

theorem capacity_failure_keeps_pool_witness :
    ∃ tr, create_process full_registry "Notepad" 50 5 1 'y' 0 7 13
      = some (full_registry, tr) :=
  capacity_failure_keeps_pool full_registry "Notepad" 50 5 1 'y' 0 7 13 rfl
    (by decide) (by decide) (by decide)

/-- C6 (bounded registry).  Every sequence of operations from the initial state
runs to a state with `0 <= task_count <= 50`, and every further operation is
defined there: no call reads or writes `tasks` outside `[0, 50)`, since an
operation is undefined exactly when it does. -/
theorem registry_bounded (total_ram total_hdd total_cores : Int) (ops : List Op) :
    ∃ s, run (init total_ram total_hdd total_cores) ops = some s ∧
      0 ≤ s.task_count ∧ s.task_count ≤ MAX_TASKS ∧
      ∀ op, ∃ r, step s op = some r := by
  obtain ⟨s, hs, hb, hc, _⟩ :=
    run_ok ops (init total_ram total_hdd total_cores) (init_bounded _ _ _)
      (init_conserved _ _ _)
  refine ⟨s, hs, hb.1, hb.2, fun op => ?_⟩
  obtain ⟨r, hr, _⟩ := step_ok s op hb hc
  exact ⟨r, hr⟩

/-- C7 (terminate success).  For an index `0 <= i < task_count` (within the
array) whose task is running, when `kill` and `waitpid` both succeed,
`close_task(i)` lowers `task_count` by one, leaves entries `[0, i)` unchanged,
makes each entry `j >= i` of the shorter registry equal to the old entry `j + 1`,
raises each available counter by exactly the removed task's usage and keeps the
totals. -/
theorem terminate_success (s : State) (i kill_ret wait_ret : Int)
    (h0 : 0 ≤ i) (h1 : i < s.task_count) (h50 : s.task_count ≤ MAX_TASKS)
    (hr : (s.tasks i.toNat).is_running ≠ 0)
    (hk : kill_ret ≠ -1) (hw : wait_ret ≠ -1) :
    ∃ s1 tr, close_task s i kill_ret wait_ret = some (s1, tr) ∧
      s1.task_count = s.task_count - 1 ∧
      (∀ j, j < i.toNat → s1.tasks j = s.tasks j) ∧
      (∀ j, i.toNat ≤ j → j < s1.task_count.toNat → s1.tasks j = s.tasks (j + 1)) ∧
      s1.system_res.available_ram
        = s.system_res.available_ram + (s.tasks i.toNat).ram_usage ∧
      s1.system_res.available_hdd
        = s.system_res.available_hdd + (s.tasks i.toNat).hdd_usage ∧
      s1.system_res.available_cores
        = s.system_res.available_cores + (s.tasks i.toNat).cpu_usage ∧
      s1.system_res.total_ram = s.system_res.total_ram ∧
      s1.system_res.total_hdd = s.system_res.total_hdd ∧
      s1.system_res.total_cores = s.system_res.total_cores := by
  refine ⟨_, _, close_task_success s i kill_ret wait_ret h0 h1 h50 hr hk hw, rfl, ?_, ?_,
    rfl, rfl, rfl, rfl, rfl, rfl⟩
  · intro j hj
    have hn : ¬ (i.toNat ≤ j ∧ j < (s.task_count - 1).toNat) := by omega
    simp only [hn, if_false]
  · intro j hj hj1
    have hp : i.toNat ≤ j ∧ j < (s.task_count - 1).toNat := ⟨hj, hj1⟩
    simp only [hp, and_self, if_true]

theorem terminate_success_witness :
    ∃ s1 tr, close_task two_tasks 0 0 0 = some (s1, tr) ∧
      s1.task_count = two_tasks.task_count - 1 ∧
      (∀ j, j < (0 : Int).toNat → s1.tasks j = two_tasks.tasks j) ∧
      (∀ j, (0 : Int).toNat ≤ j → j < s1.task_count.toNat →
        s1.tasks j = two_tasks.tasks (j + 1)) ∧
      s1.system_res.available_ram
        = two_tasks.system_res.available_ram + (two_tasks.tasks (0 : Int).toNat).ram_usage ∧
      s1.system_res.available_hdd
        = two_tasks.system_res.available_hdd + (two_tasks.tasks (0 : Int).toNat).hdd_usage ∧
      s1.system_res.available_cores
        = two_tasks.system_res.available_cores
          + (two_tasks.tasks (0 : Int).toNat).cpu_usage ∧
      s1.system_res.total_ram = two_tasks.system_res.total_ram ∧
      s1.system_res.total_hdd = two_tasks.system_res.total_hdd ∧
      s1.system_res.total_cores = two_tasks.system_res.total_cores :=
  terminate_success two_tasks 0 0 0 (by decide) (by decide) (by decide) (by decide)
    (by decide) (by decide)

/-- C8 (terminate rejects bad indices).  For an index `i < 0`, `i >= task_count`,
or one whose slot `tasks[i]` has `is_running = 0`, `close_task(i)` only reports
"Invalid task index!": it sends no signal and returns the state it was given, so
the pool, `task_count` and every registry entry are unchanged. -/
theorem terminate_rejects_invalid_index (s : State) (i kill_ret wait_ret : Int)
    (h : i < 0 ∨ i ≥ s.task_count ∨
      (0 ≤ i ∧ i < MAX_TASKS ∧ (s.tasks i.toNat).is_running = 0)) :
    close_task s i kill_ret wait_ret
      = some (s, [Event.print_error "Invalid task index!"]) :=
  close_task_invalid s i kill_ret wait_ret h

theorem terminate_rejects_invalid_index_witness :
    close_task two_tasks 2 0 0 = some (two_tasks, [Event.print_error "Invalid task index!"]) :=
  terminate_rejects_invalid_index two_tasks 2 0 0 (Or.inr (Or.inl (by decide)))

/-- C9 (terminate is atomic on partial failure).  For a valid running index,
if `kill` fails, or `kill` succeeds and `waitpid` fails, `close_task(i)` returns
the state it was given: no resource is released and no task removed. -/
theorem terminate_failure_keeps_state (s : State) (i kill_ret wait_ret : Int)
    (h0 : 0 ≤ i) (h1 : i < s.task_count) (h2 : i < MAX_TASKS)
    (hr : (s.tasks i.toNat).is_running ≠ 0)
    (hf : kill_ret = -1 ∨ (kill_ret ≠ -1 ∧ wait_ret = -1)) :
    ∃ tr, close_task s i kill_ret wait_ret = some (s, tr) ∧
      Event.print_success "Task closed successfully!" ∉ tr := by
  have hb : ¬ (i < 0 ∨ i ≥ s.task_count) := by omega
  unfold close_task
  rw [if_neg hb]
  simp only [rd, h0, h2, and_self, if_true, Option.bind, hr, if_false]
  rcases hf with h | ⟨h, h'⟩
  · rw [if_pos h]; exact ⟨_, rfl, by simp⟩
  · rw [if_neg h, if_pos h']; exact ⟨_, rfl, by simp⟩

theorem terminate_failure_keeps_state_witness :
    ∃ tr, close_task two_tasks 1 0 (-1) = some (two_tasks, tr) ∧
      Event.print_success "Task closed successfully!" ∉ tr :=
  terminate_failure_keeps_state two_tasks 1 0 (-1) (by decide) (by decide) (by decide)
    (by decide) (Or.inr ⟨by decide, rfl⟩)

/-- C10, as stated, fails: after `close_task(0)` succeeds on a registry of two
running tasks, the second task sits at index 0, and a second `close_task(0)` is
not rejected: it signals and removes that task and releases its resources.
The tuple lists, after the first call, `task_count`, the name at index 0 and
available RAM, then the same after the second call with its events. -/
theorem second_close_removes_next_task :
    ((close_task two_tasks 0 0 0).bind fun r1 =>
      (close_task r1.1 0 0 0).map fun r2 =>
        (r1.1.task_count, (r1.1.tasks 0).name, r1.1.system_res.available_ram,
         r2.1.task_count, r2.1.system_res.available_ram, r2.2))
      = some (1, "Calculator", 80, 0, 100,
          [Event.kill (-1), Event.waitpid (-1),
           Event.print_success "Task closed successfully!"]) := by
  rfl

/-- C10, amended.  After `close_task(i)` has succeeded, a second `close_task(i)`
on the resulting state is rejected as an invalid index and changes nothing
when `i` was the last registry index or the task that followed it is not
running. -/
theorem second_close_rejected (s : State) (i kill_ret wait_ret kill_ret2 wait_ret2 : Int)
    (h0 : 0 ≤ i) (h1 : i < s.task_count) (h50 : s.task_count ≤ MAX_TASKS)
    (hr : (s.tasks i.toNat).is_running ≠ 0)
    (hk : kill_ret ≠ -1) (hw : wait_ret ≠ -1)
    (hlast : i = s.task_count - 1 ∨ (s.tasks (i.toNat + 1)).is_running = 0) :
    ∃ s1 tr, close_task s i kill_ret wait_ret = some (s1, tr) ∧
      Event.print_success "Task closed successfully!" ∈ tr ∧
      close_task s1 i kill_ret2 wait_ret2
        = some (s1, [Event.print_error "Invalid task index!"]) := by
  refine ⟨_, _, close_task_success s i kill_ret wait_ret h0 h1 h50 hr hk hw, by simp, ?_⟩
  apply close_task_invalid
  by_cases hl : i = s.task_count - 1
  · right; left
    show i ≥ s.task_count - 1
    omega
  · right; right
    refine ⟨h0, by omega, ?_⟩
    have hp : i.toNat ≤ i.toNat ∧ i.toNat < (s.task_count - 1).toNat := by omega
    simp only [hp, and_self, if_true]
    rcases hlast with h | h
    · exact absurd h hl
    · exact h

theorem second_close_rejected_witness :
    ∃ s1 tr, close_task two_tasks 1 0 0 = some (s1, tr) ∧
      Event.print_success "Task closed successfully!" ∈ tr ∧
      close_task s1 1 0 0 = some (s1, [Event.print_error "Invalid task index!"]) :=
  second_close_rejected two_tasks 1 0 0 0 0 (by decide) (by decide) (by decide) (by decide)
    (by decide) (by decide) (Or.inl (by decide))

/-- C11 (admit/terminate round trip).  When a request passes the resource check
with `0 <= task_count < 50`, registering the task in the background and then
closing the new task's index (old `task_count`) with `kill` and `waitpid`
succeeding restores the whole resource pool, `task_count` and every registry
entry below `task_count`.  Scenario on totals (100, 50, 4): admitting (50, 5, 1)
leaves (50, 45, 3) available, admitting (60, 5, 1) is then denied with the pool
unchanged, and `close_task(0)` brings (100, 50, 4) back. -/
theorem admit_terminate_round_trip (s : State) (task_name : String) (ram hdd cpu : Int)
    (bg : Char) (now r1 r2 kill_ret wait_ret : Int)
    (h1 : ram ≤ s.system_res.available_ram) (h2 : hdd ≤ s.system_res.available_hdd)
    (h3 : cpu ≤ s.system_res.available_cores)
    (h0 : 0 ≤ s.task_count) (h50 : s.task_count < MAX_TASKS)
    (hbg : bg = 'y' ∨ bg = 'Y') (hk : kill_ret ≠ -1) (hw : wait_ret ≠ -1) :
    (∃ s1 tr1 s2 tr2,
      create_process s task_name ram hdd cpu bg now r1 r2 = some (s1, tr1) ∧
      close_task s1 s.task_count kill_ret wait_ret = some (s2, tr2) ∧
      s2.system_res = s.system_res ∧
      s2.task_count = s.task_count ∧
      ∀ j, j < s.task_count.toNat → s2.tasks j = s.tasks j) ∧
    ((create_process (init 100 50 4) "A" 50 5 1 'y' 0 0 0).bind fun a =>
      (create_process a.1 "B" 60 5 1 'y' 0 0 0).bind fun b =>
        (close_task b.1 0 0 0).map fun c =>
          (a.1.system_res, a.1.task_count, b.2, b.1.system_res, b.1.task_count,
           c.1.system_res, c.1.task_count))
      = some
        ({ total_ram := 100, total_hdd := 50, total_cores := 4,
           available_ram := 50, available_hdd := 45, available_cores := 3 }, 1,
         [Event.print_error "Not enough resources to start this task!"],
         { total_ram := 100, total_hdd := 50, total_cores := 4,
           available_ram := 50, available_hdd := 45, available_cores := 3 }, 1,
         { total_ram := 100, total_hdd := 50, total_cores := 4,
           available_ram := 100, available_hdd := 50, available_cores := 4 }, 0) := by
  refine ⟨?_, rfl⟩
  obtain ⟨s1, tr1, hc, ht, hres, hn⟩ :=
    create_process_registered s task_name ram hdd cpu bg now r1 r2
      (check_resources_true _ _ _ _ h1 h2 h3) hbg h0 h50
  have hrun : (s1.tasks s.task_count.toNat).is_running ≠ 0 := by
    rw [ht, Function.update_same]
    exact one_ne_zero
  have hcl := close_task_success s1 s.task_count kill_ret wait_ret h0
    (by omega) (by omega) hrun hk hw
  refine ⟨s1, tr1, _, _, hc, hcl, ?_, ?_, ?_⟩
  · show ({ available_ram := _, .. } : SystemResources) = s.system_res
    rw [ht, hres]
    simp only [Function.update_same]
    exact system_res_add_sub s.system_res ram hdd cpu
  · show s1.task_count - 1 = s.task_count
    omega
  · intro j hj
    have hn : ¬ (s.task_count.toNat ≤ j ∧ j < (s1.task_count - 1).toNat) := by omega
    simp only [hn, if_false]
    rw [ht]
    exact Function.update_noteq (by omega) _ _

theorem admit_terminate_round_trip_witness :
    ∃ s1 tr1 s2 tr2,
      create_process two_tasks "Time" 10 1 1 'y' 0 7 13 = some (s1, tr1) ∧
      close_task s1 two_tasks.task_count 0 0 = some (s2, tr2) ∧
      s2.system_res = two_tasks.system_res ∧
      s2.task_count = two_tasks.task_count ∧
      ∀ j, j < two_tasks.task_count.toNat → s2.tasks j = two_tasks.tasks j :=
  (admit_terminate_round_trip two_tasks "Time" 10 1 1 'y' 0 7 13 0 0 (by decide) (by decide)
    (by decide) (by decide) (by decide) (Or.inl rfl) (by decide) (by decide)).1

/-- C12 (Round-Robin tick rotates and ages).  Under ROUND_ROBIN with
`1 <= task_count <= 50`, `schedule_tasks` leaves in `tasks[0 .. n)` the old
entries `1 .. n-1` followed by the old front entry with its `remaining_time`
lowered by 2 and nothing else changed; entries from `n` on are untouched.  When
the old front task had `remaining_time > 2` nothing is evicted: no signal is
sent, `task_count` and the pool are unchanged and the queue is the rotated one. -/
theorem round_robin_rotates_and_ages (s : State) (kill_ret wait_ret : Int)
    (hs : s.current_scheduler = SchedulingAlgorithm.ROUND_ROBIN)
    (h1 : 1 ≤ s.task_count) (h50 : s.task_count ≤ MAX_TASKS) :
    ∃ s1 tr, schedule_tasks s kill_ret wait_ret = some (s1, tr) ∧
      (∀ j, j + 1 < s.task_count.toNat → s1.tasks j = s.tasks (j + 1)) ∧
      s1.tasks (s.task_count.toNat - 1)
        = { s.tasks 0 with remaining_time := (s.tasks 0).remaining_time - 2 } ∧
      (∀ j, s.task_count.toNat ≤ j → s1.tasks j = s.tasks j) ∧
      s1.current_scheduler = s.current_scheduler ∧
      (2 < (s.tasks 0).remaining_time →
        tr = [] ∧ s1.task_count = s.task_count ∧ s1.system_res = s.system_res ∧
        s1.queue = s.queue.tail
          ++ [{ s.tasks 0 with remaining_time := (s.tasks 0).remaining_time - 2 }]) := by
  rw [schedule_tasks_rr s _ _ hs (by omega) h50]
  obtain ⟨m, hm⟩ : ∃ m : Nat, s.task_count = (m : Int) + 1 :=
    ⟨(s.task_count - 1).toNat, by omega⟩
  have e2 : s.task_count.toNat = m + 1 := by omega
  have hA : ∀ j, j + 1 < s.task_count.toNat →
      rr_array s.tasks s.task_count.toNat j = s.tasks (j + 1) := by
    intro j hj
    simp only [rr_array, hj, if_true]
  have hB : rr_array s.tasks s.task_count.toNat (s.task_count.toNat - 1)
      = { s.tasks 0 with remaining_time := (s.tasks 0).remaining_time - 2 } := by
    have hn : ¬ (s.task_count.toNat - 1 + 1 < s.task_count.toNat) := by omega
    have he : s.task_count.toNat - 1 + 1 = s.task_count.toNat := by omega
    unfold rr_array
    rw [if_neg hn, if_pos he]
    rfl
  have hC : ∀ j, s.task_count.toNat ≤ j →
      rr_array s.tasks s.task_count.toNat j = s.tasks j := by
    intro j hj
    have hn : ¬ (j + 1 < s.task_count.toNat) := by omega
    have hn2 : ¬ (j + 1 = s.task_count.toNat) := by omega
    simp only [rr_array, hn, hn2, if_false]
  by_cases hrem : (s.tasks 0).remaining_time - TIME_QUANTUM ≤ 0
  · rw [if_pos hrem]
    refine ⟨_, _, rfl, hA, hB, hC, rfl, ?_⟩
    intro h
    simp only [TIME_QUANTUM] at hrem
    omega
  · rw [if_neg hrem]
    refine ⟨_, _, rfl, hA, hB, hC, rfl, ?_⟩
    intro _
    refine ⟨rfl, rfl, rfl, ?_⟩
    show registry (rr_array s.tasks s.task_count.toNat) s.task_count.toNat = _
    rw [State.queue, e2, registry_rr_keep, registry_succ_cons]
    simp only [List.tail_cons, aged, TIME_QUANTUM]

theorem round_robin_rotates_and_ages_witness :
    ∃ s1 tr, schedule_tasks (rr_state 5 1) 0 0 = some (s1, tr) ∧
      (∀ j, j + 1 < (rr_state 5 1).task_count.toNat →
        s1.tasks j = (rr_state 5 1).tasks (j + 1)) ∧
      s1.tasks ((rr_state 5 1).task_count.toNat - 1)
        = { (rr_state 5 1).tasks 0 with
            remaining_time := ((rr_state 5 1).tasks 0).remaining_time - 2 } ∧
      (∀ j, (rr_state 5 1).task_count.toNat ≤ j → s1.tasks j = (rr_state 5 1).tasks j) ∧
      s1.current_scheduler = (rr_state 5 1).current_scheduler ∧
      (2 < ((rr_state 5 1).tasks 0).remaining_time →
        tr = [] ∧ s1.task_count = (rr_state 5 1).task_count ∧
        s1.system_res = (rr_state 5 1).system_res ∧
        s1.queue = (rr_state 5 1).queue.tail
          ++ [{ (rr_state 5 1).tasks 0 with
                remaining_time := ((rr_state 5 1).tasks 0).remaining_time - 2 }]) :=
  round_robin_rotates_and_ages (rr_state 5 1) 0 0 rfl (by decide) (by decide)

/-- C13 (Round-Robin eviction).  Under ROUND_ROBIN with `1 <= task_count <= 50`
and a front task with `remaining_time <= 2`, one `schedule_tasks` call is
defined (also for `task_count = 1`, where it leaves an empty registry), lowers
`task_count` by one, leaves exactly the old entries `1 .. n-1` in their order,
raises each available counter by the old front task's usage and keeps the
totals.  Scenario: with remaining times [1, 5] the registry afterwards holds
only the original second task. -/
theorem round_robin_evicts_front (s : State) (kill_ret wait_ret : Int)
    (hs : s.current_scheduler = SchedulingAlgorithm.ROUND_ROBIN)
    (h1 : 1 ≤ s.task_count) (h50 : s.task_count ≤ MAX_TASKS)
    (hrem : (s.tasks 0).remaining_time ≤ 2) :
    (∃ s1 tr, schedule_tasks s kill_ret wait_ret = some (s1, tr) ∧
      s1.task_count = s.task_count - 1 ∧
      (∀ j, j < s1.task_count.toNat → s1.tasks j = s.tasks (j + 1)) ∧
      s1.queue = s.queue.tail ∧
      s1.system_res.available_ram = s.system_res.available_ram + (s.tasks 0).ram_usage ∧
      s1.system_res.available_hdd = s.system_res.available_hdd + (s.tasks 0).hdd_usage ∧
      s1.system_res.available_cores
        = s.system_res.available_cores + (s.tasks 0).cpu_usage ∧
      s1.system_res.total_ram = s.system_res.total_ram ∧
      s1.system_res.total_hdd = s.system_res.total_hdd ∧
      s1.system_res.total_cores = s.system_res.total_cores) ∧
    (schedule_tasks (rr_state 1 5) 0 0).map (fun r => (r.1.task_count, r.1.queue))
      = some (1, [(rr_state 1 5).tasks 1]) := by
  refine ⟨?_, rfl⟩
  rw [schedule_tasks_rr s _ _ hs (by omega) h50]
  have hq : (s.tasks 0).remaining_time - TIME_QUANTUM ≤ 0 := by
    simp only [TIME_QUANTUM]; omega
  rw [if_pos hq]
  obtain ⟨m, hm⟩ : ∃ m : Nat, s.task_count = (m : Int) + 1 :=
    ⟨(s.task_count - 1).toNat, by omega⟩
  have e1 : (s.task_count - 1).toNat = m := by omega
  have e2 : s.task_count.toNat = m + 1 := by omega
  refine ⟨_, _, rfl, rfl, ?_, ?_, rfl, rfl, rfl, rfl, rfl, rfl⟩
  · intro j hj
    have hj' : j + 1 < s.task_count.toNat := by
      have : j < (s.task_count - 1).toNat := hj
      omega
    show rr_array s.tasks s.task_count.toNat j = _
    simp only [rr_array, hj', if_true]
  · show registry (rr_array s.tasks s.task_count.toNat) (s.task_count - 1).toNat = _
    rw [State.queue, e1, e2, registry_rr_evict, registry_succ_cons]
    rfl

theorem round_robin_evicts_front_witness :
    ∃ s1 tr, schedule_tasks (rr_state 1 5) 0 0 = some (s1, tr) ∧
      s1.task_count = (rr_state 1 5).task_count - 1 ∧
      (∀ j, j < s1.task_count.toNat → s1.tasks j = (rr_state 1 5).tasks (j + 1)) ∧
      s1.queue = (rr_state 1 5).queue.tail ∧
      s1.system_res.available_ram
        = (rr_state 1 5).system_res.available_ram + ((rr_state 1 5).tasks 0).ram_usage ∧
      s1.system_res.available_hdd
        = (rr_state 1 5).system_res.available_hdd + ((rr_state 1 5).tasks 0).hdd_usage ∧
      s1.system_res.available_cores
        = (rr_state 1 5).system_res.available_cores
          + ((rr_state 1 5).tasks 0).cpu_usage ∧
      s1.system_res.total_ram = (rr_state 1 5).system_res.total_ram ∧
      s1.system_res.total_hdd = (rr_state 1 5).system_res.total_hdd ∧
      s1.system_res.total_cores = (rr_state 1 5).system_res.total_cores :=
  (round_robin_evicts_front (rr_state 1 5) 0 0 rfl (by decide) (by decide) (by decide)).1

/-- C17 (no-op ticks).  Under FCFS, in every state, and under every policy when
`task_count = 0`, `schedule_tasks` returns the state it was given and does
nothing else: order, task fields, `task_count` and the pool are unchanged. -/
theorem noop_ticks (s : State) (kill_ret wait_ret : Int)
    (h : s.current_scheduler = SchedulingAlgorithm.FCFS ∨ s.task_count = 0) :
    schedule_tasks s kill_ret wait_ret = some (s, []) :=
  schedule_tasks_noop s kill_ret wait_ret h.symm

theorem noop_ticks_witness : schedule_tasks two_tasks 0 0 = some (two_tasks, []) :=
  noop_ticks two_tasks 0 0 (Or.inl rfl)

/-- C18 (minimize/restore are flag flips).  For a valid running index `i`,
`minimize_task(i)` sets `tasks[i].is_minimized` to 1 and `restore_task(i)` sets
it to 0; every other field of that task, every other entry, `task_count`, the
pool and the policy are unchanged.  For an index outside `[0, task_count)` or a
slot that is not running both are rejected and return the state they were
given. -/
theorem minimize_restore_flag_only (s : State) (i : Int) :
    (0 ≤ i → i < s.task_count → i < MAX_TASKS → (s.tasks i.toNat).is_running ≠ 0 →
      (∃ s1 tr, minimize_task s i = some (s1, tr) ∧
        s1.tasks i.toNat = { s.tasks i.toNat with is_minimized := 1 } ∧
        (∀ j, j ≠ i.toNat → s1.tasks j = s.tasks j) ∧
        s1.task_count = s.task_count ∧ s1.system_res = s.system_res ∧
        s1.current_scheduler = s.current_scheduler) ∧
      (∃ s1 tr, restore_task s i = some (s1, tr) ∧
        s1.tasks i.toNat = { s.tasks i.toNat with is_minimized := 0 } ∧
        (∀ j, j ≠ i.toNat → s1.tasks j = s.tasks j) ∧
        s1.task_count = s.task_count ∧ s1.system_res = s.system_res ∧
        s1.current_scheduler = s.current_scheduler)) ∧
    (i < 0 ∨ i ≥ s.task_count ∨
        (0 ≤ i ∧ i < MAX_TASKS ∧ (s.tasks i.toNat).is_running = 0) →
      minimize_task s i = some (s, [Event.print_error "Invalid task index!"]) ∧
      restore_task s i = some (s, [Event.print_error "Invalid task index!"])) := by
  refine ⟨?_, flag_invalid s i⟩
  intro h0 h1 h2 hr
  obtain ⟨hm, hrs⟩ := flag_valid s i h0 h1 h2 hr
  refine ⟨⟨_, _, hm, ?_, ?_, rfl, rfl, rfl⟩, ⟨_, _, hrs, ?_, ?_, rfl, rfl, rfl⟩⟩
  · simp only [Function.update_same]
  · intro j hj
    exact Function.update_noteq hj _ _
  · simp only [Function.update_same]
  · intro j hj
    exact Function.update_noteq hj _ _

theorem minimize_restore_flag_only_witness :
    ((∃ s1 tr, minimize_task two_tasks 1 = some (s1, tr) ∧
        s1.tasks (1 : Int).toNat = { two_tasks.tasks (1 : Int).toNat with is_minimized := 1 } ∧
        (∀ j, j ≠ (1 : Int).toNat → s1.tasks j = two_tasks.tasks j) ∧
        s1.task_count = two_tasks.task_count ∧ s1.system_res = two_tasks.system_res ∧
        s1.current_scheduler = two_tasks.current_scheduler) ∧
      (∃ s1 tr, restore_task two_tasks 1 = some (s1, tr) ∧
        s1.tasks (1 : Int).toNat = { two_tasks.tasks (1 : Int).toNat with is_minimized := 0 } ∧
        (∀ j, j ≠ (1 : Int).toNat → s1.tasks j = two_tasks.tasks j) ∧
        s1.task_count = two_tasks.task_count ∧ s1.system_res = two_tasks.system_res ∧
        s1.current_scheduler = two_tasks.current_scheduler)) ∧
    (minimize_task two_tasks 7 = some (two_tasks, [Event.print_error "Invalid task index!"]) ∧
      restore_task two_tasks 7 = some (two_tasks, [Event.print_error "Invalid task index!"])) :=
  ⟨(minimize_restore_flag_only two_tasks 1).1 (by decide) (by decide) (by decide) (by decide),
   (minimize_restore_flag_only two_tasks 7).2 (Or.inr (Or.inl (by decide)))⟩

/-- C19 (setPolicy is a pure policy change).  `set_scheduling_algorithm` sets
`current_scheduler` to FCFS, ROUND_ROBIN or PRIORITY for the choices 1, 2, 3 and
leaves it unchanged for any other choice and when no number is read; in every
case the task array, `task_count` and the resource pool are unchanged. -/
theorem set_policy_pure (s : State) (choice : Option Int) :
    (set_scheduling_algorithm s choice).1.tasks = s.tasks ∧
    (set_scheduling_algorithm s choice).1.task_count = s.task_count ∧
    (set_scheduling_algorithm s choice).1.system_res = s.system_res ∧
    (choice = some 1 →
      (set_scheduling_algorithm s choice).1.current_scheduler = SchedulingAlgorithm.FCFS) ∧
    (choice = some 2 →
      (set_scheduling_algorithm s choice).1.current_scheduler
        = SchedulingAlgorithm.ROUND_ROBIN) ∧
    (choice = some 3 →
      (set_scheduling_algorithm s choice).1.current_scheduler
        = SchedulingAlgorithm.PRIORITY) ∧
    (choice ≠ some 1 → choice ≠ some 2 → choice ≠ some 3 →
      (set_scheduling_algorithm s choice).1.current_scheduler = s.current_scheduler) := by
  obtain ⟨f1, f2, f3⟩ := set_scheduling_algorithm_frame s choice
  refine ⟨f1, f3, f2, ?_, ?_, ?_, ?_⟩
  · intro h; subst h; rfl
  · intro h; subst h; rfl
  · intro h; subst h; rfl
  · intro n1 n2 n3
    cases choice with
    | none => rfl
    | some c =>
      have c1 : c ≠ 1 := fun h => n1 (by rw [h])
      have c2 : c ≠ 2 := fun h => n2 (by rw [h])
      have c3 : c ≠ 3 := fun h => n3 (by rw [h])
      simp only [set_scheduling_algorithm, c1, c2, c3, if_false]
      split_ifs <;> rfl

theorem set_policy_pure_witness :
    (set_scheduling_algorithm two_tasks (some 2)).1.current_scheduler
        = SchedulingAlgorithm.ROUND_ROBIN ∧
    (set_scheduling_algorithm two_tasks (some 9)).1.current_scheduler
        = two_tasks.current_scheduler :=
  ⟨(set_policy_pure two_tasks (some 2)).2.2.2.2.1 rfl,
   (set_policy_pure two_tasks (some 9)).2.2.2.2.2.2 (by decide) (by decide) (by decide)⟩

/-- C20, as stated, fails: with a negative total read at startup, initialization
does not fail; the simulator boots with `total_ram = available_ram = -5`. -/
theorem negative_total_boots :
    (main_init (some (-5)) (some 50) (some 4)).toOption.map (fun s => s.system_res)
      = some { total_ram := -5, total_hdd := 50, total_cores := 4,
               available_ram := -5, available_hdd := 50, available_cores := 4 } := by
  rfl

/-- C20, amended.  For every triple of integers read at startup, negative ones
included, initialization succeeds with the totals as read and
`available = total` for RAM, disk and cores; it fails exactly when one of the
three inputs is not read as an integer. -/
theorem pool_initialization (ram hdd cores : Option Int) :
    (∀ r h c, ram = some r → hdd = some h → cores = some c →
      main_init ram hdd cores = Except.ok (init r h c) ∧
      (init r h c).system_res
        = { total_ram := r, total_hdd := h, total_cores := c,
            available_ram := r, available_hdd := h, available_cores := c }) ∧
    ((∃ msg, main_init ram hdd cores = Except.error msg) ↔
      ram = none ∨ hdd = none ∨ cores = none) := by
  constructor
  · intro r h c hr hh hc
    subst hr hh hc
    exact ⟨rfl, rfl⟩
  · cases ram with
    | none => simp [main_init]
    | some r =>
      cases hdd with
      | none => simp [main_init]
      | some h =>
        cases cores with
        | none => simp [main_init]
        | some c => simp [main_init]

theorem pool_initialization_witness :
    main_init (some 100) (some 50) (some 4) = Except.ok (init 100 50 4) ∧
      (init 100 50 4).system_res
        = { total_ram := 100, total_hdd := 50, total_cores := 4,
            available_ram := 100, available_hdd := 50, available_cores := 4 } :=
  (pool_initialization (some 100) (some 50) (some 4)).1 100 50 4 rfl rfl rfl

/-- C14, as stated, fails: with remaining times [5, 1] under ROUND_ROBIN, the
second task has `remaining_time = 1 <= 2 * 1`, yet after one `schedule_tasks`
call it is still registered (now at the front); the tick only aged the old
front task from 5 to 3. -/
theorem one_tick_keeps_short_task :
    (run (rr_state 5 1) [Op.schedule_tasks 0 0]).map
        (fun s => s.queue.map fun t => (t.name, t.remaining_time))
      = some [("Calculator", 1), ("Notepad", 3)] := by
  rfl

/-- C14, amended.  Under ROUND_ROBIN, after `k >= 1` rounds of `schedule_tasks`
calls, a round being one call for each task registered when it starts, the
registry holds exactly the tasks whose initial `remaining_time` exceeded
`2 * k`, in their original order and each with `remaining_time` lowered by
`2 * k`: every task whose initial `remaining_time` was at most `2 * k` is gone. -/
theorem round_robin_deadline_in_rounds (s : State) (kill_ret wait_ret : Int) (k : Nat)
    (hk : 1 ≤ k)
    (hs : s.current_scheduler = SchedulingAlgorithm.ROUND_ROBIN)
    (h0 : 0 ≤ s.task_count) (h50 : s.task_count ≤ MAX_TASKS) :
    ∃ s1, rr_rounds kill_ret wait_ret k s = some s1 ∧
      s1.queue
        = (s.queue.filter fun t => decide (2 * (k : Int) < t.remaining_time)).map
            fun t => { t with remaining_time := t.remaining_time - 2 * (k : Int) } := by
  obtain ⟨j, rfl⟩ : ∃ j, k = j + 1 := ⟨k - 1, by omega⟩
  obtain ⟨s1, h1, hq, _⟩ := rr_rounds_survivors kill_ret wait_ret j s hs h0 h50
  exact ⟨s1, h1, hq⟩

theorem round_robin_deadline_in_rounds_witness :
    ∃ s1, rr_rounds 0 0 2 (rr_state 5 1) = some s1 ∧
      s1.queue
        = ((rr_state 5 1).queue.filter
            fun t => decide (2 * ((2 : Nat) : Int) < t.remaining_time)).map
            fun t => { t with remaining_time := t.remaining_time - 2 * ((2 : Nat) : Int) } :=
  round_robin_deadline_in_rounds (rr_state 5 1) 0 0 2 (by decide) rfl (by decide) (by decide)

/-- C15 (priority tick sorts).  Under PRIORITY with `0 <= task_count <= 50`, one
`schedule_tasks` call keeps `task_count` and the pool, leaves in the registry a
permutation of the tasks it held (whole records), and orders it by
non-increasing priority: `tasks[i].priority >= tasks[i+1].priority` for every
`i < n - 1`. -/
theorem priority_tick_sorts (s : State) (kill_ret wait_ret : Int)
    (hs : s.current_scheduler = SchedulingAlgorithm.PRIORITY)
    (h0 : 0 ≤ s.task_count) (h50 : s.task_count ≤ MAX_TASKS) :
    ∃ s1 tr, schedule_tasks s kill_ret wait_ret = some (s1, tr) ∧
      s1.task_count = s.task_count ∧
      s1.system_res = s.system_res ∧
      List.Perm s1.queue s.queue ∧
      ∀ i, i + 1 < s.task_count.toNat →
        (s1.tasks (i + 1)).priority ≤ (s1.tasks i).priority := by
  obtain ⟨b, hb, hp, _, hsorted, _⟩ :=
    schedule_tasks_priority_full s kill_ret wait_ret hs h0 h50
  exact ⟨_, _, hb, rfl, rfl, hp, hsorted⟩

theorem priority_tick_sorts_witness :
    ∃ s1 tr, schedule_tasks (priority_state 3 1 4) 0 0 = some (s1, tr) ∧
      s1.task_count = (priority_state 3 1 4).task_count ∧
      s1.system_res = (priority_state 3 1 4).system_res ∧
      List.Perm s1.queue (priority_state 3 1 4).queue ∧
      ∀ i, i + 1 < (priority_state 3 1 4).task_count.toNat →
        (s1.tasks (i + 1)).priority ≤ (s1.tasks i).priority :=
  priority_tick_sorts (priority_state 3 1 4) 0 0 rfl (by decide) (by decide)

/-- C16 (priority tick is stable).  Under PRIORITY with `0 <= task_count <= 50`,
the registry after `schedule_tasks` is the stable descending sort by priority
of the registry before it, and for every priority the tasks of that priority
appear in the same relative order as before.  Scenario: priorities [3, 1, 4]
become [4, 3, 1]; with priorities [2, 5, 2] the two tasks of priority 2 keep
their order. -/
theorem priority_tick_stable (s : State) (kill_ret wait_ret : Int)
    (hs : s.current_scheduler = SchedulingAlgorithm.PRIORITY)
    (h0 : 0 ≤ s.task_count) (h50 : s.task_count ≤ MAX_TASKS) :
    (∃ s1 tr, schedule_tasks s kill_ret wait_ret = some (s1, tr) ∧
      s1.queue = sortDescendingByPriority s.queue ∧
      ∀ q : Int, (s1.queue.filter fun t => decide (t.priority = q))
        = (s.queue.filter fun t => decide (t.priority = q))) ∧
    (schedule_tasks (priority_state 3 1 4) 0 0).map
        (fun r => r.1.queue.map fun t => (t.name, t.priority))
      = some [("C", 4), ("A", 3), ("B", 1)] ∧
    (schedule_tasks (priority_state 2 5 2) 0 0).map
        (fun r => r.1.queue.map fun t => (t.name, t.priority))
      = some [("B", 5), ("A", 2), ("C", 2)] := by
  refine ⟨?_, rfl, rfl⟩
  obtain ⟨b, hb, _, _, hsorted, hstable⟩ :=
    schedule_tasks_priority_full s kill_ret wait_ret hs h0 h50
  refine ⟨_, _, hb, ?_, hstable⟩
  apply sorted_stable_unique _ _ (registry_sorted_desc b _ hsorted)
    (sortDescendingByPriority_sorted _)
  intro q
  rw [sortDescendingByPriority_stable]
  exact hstable q

theorem priority_tick_stable_witness :
    ∃ s1 tr, schedule_tasks (priority_state 2 5 2) 0 0 = some (s1, tr) ∧
      s1.queue = sortDescendingByPriority (priority_state 2 5 2).queue ∧
      ∀ q : Int, (s1.queue.filter fun t => decide (t.priority = q))
        = ((priority_state 2 5 2).queue.filter fun t => decide (t.priority = q)) :=
  (priority_tick_stable (priority_state 2 5 2) 0 0 rfl (by decide) (by decide)).1

/-- C22 (random field ranges).  For non-negative values `r1`, `r2` of `rand()`,
the task `create_process` registers (resource check passed, background answer,
`0 <= task_count < 50`) has `priority = r1 % 5 + 1`, which lies in `[1, 5]`, and
`remaining_time = r2 % 10 + 1`, which lies in `[1, 10]`. -/
theorem random_field_ranges (s : State) (task_name : String) (ram hdd cpu : Int)
    (bg : Char) (now r1 r2 : Int)
    (h1 : ram ≤ s.system_res.available_ram) (h2 : hdd ≤ s.system_res.available_hdd)
    (h3 : cpu ≤ s.system_res.available_cores)
    (h0 : 0 ≤ s.task_count) (h50 : s.task_count < MAX_TASKS)
    (hbg : bg = 'y' ∨ bg = 'Y') (hr1 : 0 ≤ r1) (hr2 : 0 ≤ r2) :
    ∃ s1 tr, create_process s task_name ram hdd cpu bg now r1 r2 = some (s1, tr) ∧
      (s1.tasks s.task_count.toNat).priority = r1 % 5 + 1 ∧
      1 ≤ (s1.tasks s.task_count.toNat).priority ∧
      (s1.tasks s.task_count.toNat).priority ≤ 5 ∧
      (s1.tasks s.task_count.toNat).remaining_time = r2 % 10 + 1 ∧
      1 ≤ (s1.tasks s.task_count.toNat).remaining_time ∧
      (s1.tasks s.task_count.toNat).remaining_time ≤ 10 := by
  obtain ⟨s1, tr, hc, ht, _, _⟩ :=
    create_process_registered s task_name ram hdd cpu bg now r1 r2
      (check_resources_true _ _ _ _ h1 h2 h3) hbg h0 h50
  have e1 : Int.tmod r1 5 = r1 % 5 := Int.tmod_eq_emod hr1 (by decide)
  have e2 : Int.tmod r2 10 = r2 % 10 := Int.tmod_eq_emod hr2 (by decide)
  refine ⟨s1, tr, hc, ?_, ?_, ?_, ?_, ?_, ?_⟩ <;>
    rw [ht, Function.update_same] <;> simp only [e1, e2] <;> omega

theorem random_field_ranges_witness :
    ∃ s1 tr, create_process two_tasks "Time" 10 1 1 'y' 0 7 13 = some (s1, tr) ∧
      (s1.tasks two_tasks.task_count.toNat).priority = 7 % 5 + 1 ∧
      1 ≤ (s1.tasks two_tasks.task_count.toNat).priority ∧
      (s1.tasks two_tasks.task_count.toNat).priority ≤ 5 ∧
      (s1.tasks two_tasks.task_count.toNat).remaining_time = 13 % 10 + 1 ∧
      1 ≤ (s1.tasks two_tasks.task_count.toNat).remaining_time ∧
      (s1.tasks two_tasks.task_count.toNat).remaining_time ≤ 10 :=
  random_field_ranges two_tasks "Time" 10 1 1 'y' 0 7 13 (by decide) (by decide) (by decide)
    (by decide) (by decide) (Or.inl rfl) (by decide) (by decide)

/-- C25 (foreground admission reserves nothing).  When the request passes
`check_resources` and the answer to the background prompt is neither 'y' nor
'Y', `create_process` only runs the application in the foreground and returns
the state it was given: no task is registered and the available counters and
`task_count` are unchanged. -/
theorem foreground_reserves_nothing (s : State) (task_name : String) (ram hdd cpu : Int)
    (bg : Char) (now r1 r2 : Int)
    (h1 : ram ≤ s.system_res.available_ram) (h2 : hdd ≤ s.system_res.available_hdd)
    (h3 : cpu ≤ s.system_res.available_cores)
    (hy : bg ≠ 'y') (hY : bg ≠ 'Y') :
    create_process s task_name ram hdd cpu bg now r1 r2
      = some (s, [Event.foreground task_name]) := by
  have hres := check_resources_true _ _ _ _ h1 h2 h3
  have hbg : (decide (bg = 'y') || decide (bg = 'Y')) = false := by
    simp [hy, hY]
  simp [create_process, hres, hbg]

theorem foreground_reserves_nothing_witness :
    create_process two_tasks "Time" 10 1 1 'n' 0 7 13
      = some (two_tasks, [Event.foreground "Time"]) :=
  foreground_reserves_nothing two_tasks "Time" 10 1 1 'n' 0 7 13 (by decide) (by decide)
    (by decide) (by decide) (by decide)

/-- C26 (Round-Robin eviction ignores the stop/reap outcome).  Under
ROUND_ROBIN with `1 <= task_count <= 50` and a front task with
`remaining_time <= 2`, `schedule_tasks` gives the same result for every pair of
results of `kill` and `waitpid`: the front task is removed and its usage is
released.  `close_task(0)` on the same state, when the front task is running
and `kill` or `waitpid` fails, returns the state it was given. -/
theorem eviction_ignores_stop_outcome (s : State) (kill_ret wait_ret : Int)
    (hs : s.current_scheduler = SchedulingAlgorithm.ROUND_ROBIN)
    (h1 : 1 ≤ s.task_count) (h50 : s.task_count ≤ MAX_TASKS)
    (hrem : (s.tasks 0).remaining_time ≤ 2) :
    (∃ s1 tr, schedule_tasks s kill_ret wait_ret = some (s1, tr) ∧
      s1.task_count = s.task_count - 1 ∧
      s1.queue = s.queue.tail ∧
      s1.system_res.available_ram = s.system_res.available_ram + (s.tasks 0).ram_usage ∧
      s1.system_res.available_hdd = s.system_res.available_hdd + (s.tasks 0).hdd_usage ∧
      s1.system_res.available_cores
        = s.system_res.available_cores + (s.tasks 0).cpu_usage ∧
      ∀ kill_ret2 wait_ret2 : Int,
        schedule_tasks s kill_ret2 wait_ret2 = some (s1, tr)) ∧
    ((s.tasks 0).is_running ≠ 0 →
      (kill_ret = -1 ∨ (kill_ret ≠ -1 ∧ wait_ret = -1)) →
      ∃ tr, close_task s 0 kill_ret wait_ret = some (s, tr)) := by
  constructor
  · have hq : (s.tasks 0).remaining_time - TIME_QUANTUM ≤ 0 := by
      simp only [TIME_QUANTUM]; omega
    have hgen : ∀ k w : Int, schedule_tasks s k w = some
        ({ s with
           tasks := rr_array s.tasks s.task_count.toNat,
           system_res :=
             { s.system_res with
               available_ram := s.system_res.available_ram + (s.tasks 0).ram_usage,
               available_hdd := s.system_res.available_hdd + (s.tasks 0).hdd_usage,
               available_cores := s.system_res.available_cores + (s.tasks 0).cpu_usage },
           task_count := s.task_count - 1 },
         [Event.kill (s.tasks 0).pid, Event.waitpid (s.tasks 0).pid]) := by
      intro k w
      rw [schedule_tasks_rr s _ _ hs (by omega) h50, if_pos hq]
    obtain ⟨m, hm⟩ : ∃ m : Nat, s.task_count = (m : Int) + 1 :=
      ⟨(s.task_count - 1).toNat, by omega⟩
    have e1 : (s.task_count - 1).toNat = m := by omega
    have e2 : s.task_count.toNat = m + 1 := by omega
    refine ⟨_, _, hgen kill_ret wait_ret, rfl, ?_, rfl, rfl, rfl, hgen⟩
    show registry (rr_array s.tasks s.task_count.toNat) (s.task_count - 1).toNat = _
    rw [State.queue, e1, e2, registry_rr_evict, registry_succ_cons]
    rfl
  · intro hr hf
    exact close_task_failure s 0 kill_ret wait_ret (le_refl _) (by omega) (by omega)
      (by simpa using hr) hf

theorem eviction_ignores_stop_outcome_witness :
    (∃ s1 tr, schedule_tasks (rr_state 1 5) 0 (-1) = some (s1, tr) ∧
      s1.task_count = (rr_state 1 5).task_count - 1 ∧
      s1.queue = (rr_state 1 5).queue.tail ∧
      s1.system_res.available_ram
        = (rr_state 1 5).system_res.available_ram + ((rr_state 1 5).tasks 0).ram_usage ∧
      s1.system_res.available_hdd
        = (rr_state 1 5).system_res.available_hdd + ((rr_state 1 5).tasks 0).hdd_usage ∧
      s1.system_res.available_cores
        = (rr_state 1 5).system_res.available_cores
          + ((rr_state 1 5).tasks 0).cpu_usage ∧
      ∀ kill_ret2 wait_ret2 : Int,
        schedule_tasks (rr_state 1 5) kill_ret2 wait_ret2 = some (s1, tr)) ∧
    ∃ tr, close_task (rr_state 1 5) 0 0 (-1) = some (rr_state 1 5, tr) :=
  ⟨(eviction_ignores_stop_outcome (rr_state 1 5) 0 (-1) rfl (by decide) (by decide)
      (by decide)).1,
   (eviction_ignores_stop_outcome (rr_state 1 5) 0 (-1) rfl (by decide) (by decide)
      (by decide)).2 (by decide) (Or.inr ⟨by decide, rfl⟩)⟩

/-- C23 (registered tasks are always running).  Every sequence of operations
from the initial state runs to a state in which every entry `tasks[i]` with
`0 <= i < task_count` has `is_running = 1`; there `close_task`, `minimize_task`
and `restore_task` reject an index as invalid exactly when it lies outside
`[0, task_count)`. -/
theorem registered_tasks_running (total_ram total_hdd total_cores : Int) (ops : List Op) :
    ∃ s, run (init total_ram total_hdd total_cores) ops = some s ∧
      (∀ j, j < s.task_count.toNat → (s.tasks j).is_running = 1) ∧
      ∀ i kill_ret wait_ret : Int,
        (close_task s i kill_ret wait_ret
            = some (s, [Event.print_error "Invalid task index!"])
          ↔ (i < 0 ∨ s.task_count ≤ i)) ∧
        (minimize_task s i = some (s, [Event.print_error "Invalid task index!"])
          ↔ (i < 0 ∨ s.task_count ≤ i)) ∧
        (restore_task s i = some (s, [Event.print_error "Invalid task index!"])
          ↔ (i < 0 ∨ s.task_count ≤ i)) := by
  obtain ⟨s, hs, hb, hrun⟩ :=
    run_all (fun t => t.is_running = 1) (fun _ h => h) (fun _ _ h => h)
      (fun _ _ _ _ _ _ _ => rfl) ops (init total_ram total_hdd total_cores)
      (init_bounded _ _ _) (init_conserved _ _ _) (init_all_tasks _ _ _ _)
  refine ⟨s, hs, hrun, ?_⟩
  intro i k w
  have hout : (i < 0 ∨ s.task_count ≤ i) →
      i < 0 ∨ i ≥ s.task_count ∨
        (0 ≤ i ∧ i < MAX_TASKS ∧ (s.tasks i.toNat).is_running = 0) := by
    intro h
    rcases h with h | h
    · exact Or.inl h
    · exact Or.inr (Or.inl h)
  have hin : ¬ (i < 0 ∨ s.task_count ≤ i) →
      0 ≤ i ∧ i < s.task_count ∧ i < MAX_TASKS ∧ (s.tasks i.toNat).is_running ≠ 0 := by
    intro h
    have h0 : 0 ≤ i := by omega
    have h1 : i < s.task_count := by omega
    have hr := hrun i.toNat (by omega)
    have := hb.2
    exact ⟨h0, h1, by omega, by simp only at hr; rw [hr]; exact one_ne_zero⟩
  refine ⟨⟨?_, fun h => close_task_invalid s i k w (hout h)⟩,
    ⟨?_, fun h => (flag_invalid s i (hout h)).1⟩,
    ⟨?_, fun h => (flag_invalid s i (hout h)).2⟩⟩
  · intro hrej
    by_contra hn
    obtain ⟨h0, h1, _, hr⟩ := hin hn
    obtain ⟨s1, tr, hk⟩ := close_task_valid_kill s i k w h0 h1 hb.2 hr
    rw [hk] at hrej
    simp at hrej
  · intro hrej
    by_contra hn
    obtain ⟨h0, h1, h2, hr⟩ := hin hn
    rw [(flag_valid s i h0 h1 h2 hr).1] at hrej
    simp at hrej
  · intro hrej
    by_contra hn
    obtain ⟨h0, h1, h2, hr⟩ := hin hn
    rw [(flag_valid s i h0 h1 h2 hr).2] at hrej
    simp at hrej

/-- C24 (Round-Robin drains the queue in an exact number of ticks).  Under
ROUND_ROBIN with `0 <= task_count <= 50`, let `T` be the sum over the registered
tasks of `max(1, ceil(remaining_time / 2))`.  After exactly `T` consecutive
`schedule_tasks` calls the registry is empty, after any smaller number of calls
it is not, and `T <= 5 * task_count` when every `remaining_time` is in
`[1, 10]`. -/
theorem round_robin_drain_ticks (s : State) (kill_ret wait_ret : Int)
    (hs : s.current_scheduler = SchedulingAlgorithm.ROUND_ROBIN)
    (h0 : 0 ≤ s.task_count) (h50 : s.task_count ≤ MAX_TASKS) :
    (∃ s1, run s (List.replicate (drain_ticks s.queue) (Op.schedule_tasks kill_ret wait_ret))
        = some s1 ∧ s1.task_count = 0) ∧
    (∀ m, m < drain_ticks s.queue →
      ∃ s1, run s (List.replicate m (Op.schedule_tasks kill_ret wait_ret)) = some s1 ∧
        0 < s1.task_count) ∧
    (drain_ticks s.queue
      = (s.queue.map fun t => max 1 ⌈(t.remaining_time : ℚ) / 2⌉.toNat).sum) ∧
    ((∀ t ∈ s.queue, 1 ≤ t.remaining_time ∧ t.remaining_time ≤ 10) →
      drain_ticks s.queue ≤ 5 * s.task_count.toNat) := by
  refine ⟨?_, ?_, ?_, ?_⟩
  · obtain ⟨s1, h1, hq, _, hb0, _⟩ :=
      run_ticks kill_ret wait_ret (drain_ticks s.queue) s hs h0 h50
    refine ⟨s1, h1, ?_⟩
    have := drain_ticks_iterate (drain_ticks s.queue) s.queue (le_refl _)
    rw [← hq] at this
    have hz : drain_ticks s1.queue = 0 := by omega
    exact (queue_eq_nil s1 hb0).mp ((drain_ticks_eq_zero _).mp hz)
  · intro m hm
    obtain ⟨s1, h1, hq, _, hb0, _⟩ := run_ticks kill_ret wait_ret m s hs h0 h50
    refine ⟨s1, h1, ?_⟩
    have := drain_ticks_iterate m s.queue (by omega)
    rw [← hq] at this
    have hne : s1.task_count ≠ 0 := by
      intro hz
      have hnil := (queue_eq_nil s1 hb0).mpr hz
      have hd : drain_ticks ([] : List Task) = 0 := rfl
      rw [hnil, hd] at this
      omega
    omega
  · unfold drain_ticks
    congr 1
    apply List.map_congr_left
    intro t _
    rw [ceil_half]
    rfl
  · intro h
    have := drain_ticks_le s.queue h
    rw [queue_length] at this
    exact this

theorem round_robin_drain_ticks_witness :
    (∃ s1, run (rr_state 1 5)
        (List.replicate (drain_ticks (rr_state 1 5).queue) (Op.schedule_tasks 0 0))
        = some s1 ∧ s1.task_count = 0) ∧
    (∀ m, m < drain_ticks (rr_state 1 5).queue →
      ∃ s1, run (rr_state 1 5) (List.replicate m (Op.schedule_tasks 0 0)) = some s1 ∧
        0 < s1.task_count) :=
  ⟨(round_robin_drain_ticks (rr_state 1 5) 0 0 rfl (by decide) (by decide)).1,
   (round_robin_drain_ticks (rr_state 1 5) 0 0 rfl (by decide) (by decide)).2.1⟩

end Cube
